import Mathlib

set_option maxRecDepth 8000

/-!
Shallow embedding of the yt-tracker pipeline core
(`extract_data.py` and `scrape_birthdays.py`).

Machine strings are modelled as Lean `String` (a wrapper around `List Char`);
all character-level operations are written out explicitly over `List Char`
so that every definition is executable and kernel-reducible.  Regular
expressions from the source are compiled by hand into explicit scanners,
keeping Python `re` semantics (leftmost match, lazy/greedy quantifier
order, `re.match` anchoring vs `re.search` scanning) on the character sets
the code uses.  Python `None`/falsy-string handling is modelled with
`Option`/explicit emptiness tests.
-/

/-! ### Basic character and string helpers -/

/-- Python `\s` whitespace class (ASCII part: space, TAB, LF, VT, FF, CR). -/
def isWs (c : Char) : Bool :=
  c = ' ' || c = Char.ofNat 9 || c = Char.ofNat 10 || c = Char.ofNat 11 ||
  c = Char.ofNat 12 || c = Char.ofNat 13

def lowCh (c : Char) : Char := Char.toLower c

/-- Python `str.lower()` (ASCII range, as used by the sources). -/
def lowerS (s : String) : String := String.mk (s.data.map lowCh)

/-- Python `str.strip()`. -/
def trimS (s : String) : String :=
  String.mk (((s.data.dropWhile isWs).reverse.dropWhile isWs).reverse)

/-- Case-sensitive: `pat` begins the text. -/
def listStarts : List Char → List Char → Bool
  | [], _ => true
  | _ :: _, [] => false
  | a :: as, b :: bs => (a = b) && listStarts as bs

/-- Python `text.startswith(pat)`. -/
def strStarts (t pat : String) : Bool := listStarts pat.data t.data

/-- Case-sensitive: Python `pat in t` (substring containment). -/
def subStr (pat : List Char) : List Char → Bool
  | [] => listStarts pat []
  | c :: t' => listStarts pat (c :: t') || subStr pat t'

def lowEq (a b : Char) : Bool := lowCh a = lowCh b

/-- Case-insensitive prefix test (models `re.IGNORECASE` literal matching). -/
def ciStarts : List Char → List Char → Bool
  | [], _ => true
  | _ :: _, [] => false
  | a :: as, b :: bs => lowEq a b && ciStarts as bs

/-- Case-insensitive substring search (models `re.search` of an escaped literal
with `re.IGNORECASE`, the pattern used for non-short roster names). -/
def ciSub (pat : List Char) : List Char → Bool
  | [] => ciStarts pat []
  | c :: t' => ciStarts pat (c :: t') || ciSub pat t'

def digitVal (c : Char) : Nat := c.toNat - 48

/-! ### Name Resolver (`extract_data.py` lines 46-92) -/

/-- Model of `TRACKED_ARTISTS` from `extract_data.py`. -/
def TRACKED_ARTISTS : List String := [
  "Akon", "Amy Winehouse", "Andrea Bocelli", "Audioslave", "Beastie Boys",
  "Bee Gees", "Billy Idol", "Black Eyed Peas", "Bob Marley", "Bob Seger",
  "Bon Jovi", "Boyz II Men", "Carpenters", "Cat Stevens", "Chris Cornell",
  "Coldplay", "Common", "D'Angelo", "Def Leppard", "DMX",
  "Donna Summer", "Drake", "Ed Sheeran", "Elton John", "Elvis Costello",
  "Eminem", "Erykah Badu", "Fall Out Boy", "Frank Sinatra", "Frank Zappa",
  "Glen Campbell", "Godsmack", "Guns N' Roses", "Heart", "Janet Jackson",
  "Jeremih", "Jimmy Eat World", "Jodeci", "John Lennon", "John Mellencamp",
  "Johnny Cash", "Juvenile", "Kenny Rogers", "Keyshia Cole", "Kiss",
  "Lenny Kravitz", "Lionel Richie", "Little Big Town", "LL Cool J",
  "Mariah Carey", "Marvin Gaye", "Mary J. Blige", "Neil Diamond", "Nelly",
  "Nelly Furtado", "Nirvana", "OneRepublic", "Paul McCartney", "Peggy Lee",
  "Peter Frampton", "Queens of the Stone Age", "Ringo Starr", "Roger Hodgson",
  "Rush", "Sammy Davis Jr.", "Shania Twain", "Smashing Pumpkins", "Sonic Youth",
  "Soundgarden", "Spice Girls", "Sting", "Supertramp", "Taylor Swift",
  "The Beach Boys", "The Beatles", "The Black Crowes", "The Cranberries",
  "The Game", "The Rolling Stones", "The Who", "Toby Keith", "Tom Petty",
  "Trisha Yearwood", "U2", "Weezer"]

/-- Model of `SHORT_NAMES` from `extract_data.py`. -/
def SHORT_NAMES : List String :=
  ["Heart", "Kiss", "Rush", "Sting", "Common", "U2", "DMX", "Nelly", "The Game", "Drake"]

/-- Lookbehind class of the short-name pattern: `(?<=[-–—,;:!(])`. -/
def isOpenPunct (c : Char) : Bool :=
  c = '-' || c = Char.ofNat 8211 || c = Char.ofNat 8212 || c = ',' ||
  c = ';' || c = ':' || c = '!' || c = '('

/-- Lookahead class of the short-name pattern: `(?=[\s\-–—,;:!\'").\]]|$)`
(the character alternative; end-of-text is handled at the use site). -/
def isCloseOk (c : Char) : Bool :=
  isWs c || c = '-' || c = Char.ofNat 8211 || c = Char.ofNat 8212 || c = ',' ||
  c = ';' || c = ':' || c = '!' || c = Char.ofNat 39 || c = Char.ofNat 34 ||
  c = ')' || c = '.' || c = ']'

/-- The alternation `(?:^|(?<=\s)|(?<=[-–—,;:!(]))` as a predicate on the
character immediately before the candidate position (`none` = start of text). -/
def allowedPrev : Option Char → Bool
  | none => true
  | some c => isWs c || isOpenPunct c

/-- Name matches here (case-insensitively) and the lookahead holds. -/
def shortHere (pat t : List Char) : Bool :=
  ciStarts pat t &&
  (match t.drop pat.length with
   | [] => true
   | c :: _ => isCloseOk c)

/-- Model of `re.search` of the compiled short-name pattern: scan every position,
carrying the previous character for the lookbehind alternation. -/
def shortSearch (pat : List Char) : Option Char → List Char → Bool
  | prev, [] => allowedPrev prev && shortHere pat []
  | prev, c :: t' => (allowedPrev prev && shortHere pat (c :: t')) || shortSearch pat (some c) t'

/-- Model of `ARTIST_PATTERNS[artist].search(text)` from `build_artist_patterns`:
short names use the boundary-sensitive pattern, others plain ci-containment. -/
def patternSearch (shorts : List String) (artist : String) (t : String) : Bool :=
  if artist ∈ shorts then shortSearch artist.data none t.data
  else ciSub artist.data t.data

/-- Loose-mode loop of `match_artist`: first roster entry whose pattern fires. -/
def looseLoop (shorts : List String) (t : String) : List String → Option String
  | [] => none
  | a :: rest => if patternSearch shorts a t then some a else looseLoop shorts t rest

/-- Scan to the first `]` (the `.*?` of `\[.*?\]` cannot cross a newline). -/
def findClose : List Char → Option (List Char)
  | [] => none
  | c :: r => if c = ']' then some r else if c = Char.ofNat 10 then none else findClose r

/-- Model of `re.match(r'\[.*?\]\s*', text)`: text after the leading bracketed segment
and the whitespace following it, or `none` when the regex does not match. -/
def bracketRemainder (t : String) : Option String :=
  match t.data with
  | c :: rest => if c = '[' then (findClose rest).map (fun r => String.mk (r.dropWhile isWs)) else none
  | [] => none

/-- The short-name bracket path of strict mode: the bracket regex matches and
the remainder starts with the artist. -/
def bracketAnchored (t a : String) : Bool :=
  match bracketRemainder t with
  | some r => strStarts r a
  | none => false

/-- Strict-mode loop of `match_artist` (`extract_data.py` lines 73-87). -/
def strictLoop (shorts : List String) (t : String) : List String → Option String
  | [] => none
  | a :: rest =>
    if strStarts t a || (strStarts t "[" && subStr a.data (t.data.take 60)) then
      if a ∈ shorts then
        if strStarts t a then some a
        else if bracketAnchored t a then some a
        else strictLoop shorts t rest
      else some a
    else strictLoop shorts t rest

/-- Model of `match_artist(text, strict)`.  `text : Option String` models Python's
`None`-or-string argument; `if not text` maps `None` and `""` to no match. -/
def match_artist (tracked shorts : List String) (text : Option String) (strict : Bool) : Option String :=
  match text with
  | none => none
  | some t =>
    if t = "" then none
    else if strict then strictLoop shorts t tracked
    else looseLoop shorts t tracked

/-! ### `parse_year` (`extract_data.py` lines 107-121) -/

/-- The dynamically-typed `year_val` argument of `parse_year`: `None`, a
number (floats are truncated by `int()` before the range test, so they follow
the integer path), or a string. -/
inductive YearVal where
  | vNone : YearVal
  | vInt : Int → YearVal
  | vStr : String → YearVal

/-- Model of `re.match(r'(\d{4})', s)`: the first four characters are digits; their value. -/
def lead4 : List Char → Option Nat
  | a :: b :: c :: d :: _ =>
    if a.isDigit && b.isDigit && c.isDigit && d.isDigit then
      some (((digitVal a * 10 + digitVal b) * 10 + digitVal c) * 10 + digitVal d)
    else none
  | _ => none

/-- Model of `parse_year` from `extract_data.py`. -/
def parse_year : YearVal → Option Int
  | .vNone => none
  | .vInt n => if 1800 ≤ n ∧ n ≤ 2026 then some n else none
  | .vStr s0 =>
    let s := trimS s0
    if s = "" || s = "N/A" || s = "n/a" || s = "TBC" then none
    else
      match lead4 s.data with
      | some y => if 1800 ≤ (y : Int) ∧ (y : Int) ≤ 2026 then some (y : Int) else none
      | none => none

/-! ### Event / Video records and deduplication
(`extract_data.py` lines 174-186, 236-245, 362-383) -/

/-- An editorial event record as built by `extract_editorial_events`:
`month`/`day` always set, `origYear` possibly unknown, optional links. -/
structure Event where
  name : String
  artist : String
  occasion : String
  origYear : Option Int
  month : Nat
  day : Nat
  articleUrl : Option String
  socialAssetUrl : Option String
deriving DecidableEq

/-- A music-video record as built by `extract_music_videos`. -/
structure Video where
  artist : String
  title : String
  youtubeId : String
  views : Int
  dateType : String
  origYear : Int
  month : Nat
  day : Nat
deriving DecidableEq

/-- The common shape of `deduplicate_events`/`deduplicate_videos`: keep the
first record for each composite key, preserving input order (`seen` set
threaded through the scan). -/
def dedupBy {α κ : Type} [DecidableEq κ] (key : α → κ) : List α → List κ → List α
  | [], _ => []
  | e :: rest, seen =>
    if key e ∈ seen then dedupBy key rest seen
    else e :: dedupBy key rest (key e :: seen)

/-- Key of `deduplicate_events`: `(artist, month, day, origYear-or-None, occasion)`. -/
def eventKey (e : Event) : String × Nat × Nat × Option Int × String :=
  (e.artist, e.month, e.day, e.origYear, e.occasion)

/-- Model of `deduplicate_events` from `extract_data.py`. -/
def deduplicate_events (events : List Event) : List Event :=
  dedupBy eventKey events []

/-- Key of `deduplicate_videos`: `(artist, month, day, origYear, youtubeId)`. -/
def videoKey (v : Video) : String × Nat × Nat × Int × String :=
  (v.artist, v.month, v.day, v.origYear, v.youtubeId)

/-- Model of `deduplicate_videos` from `extract_data.py`. -/
def deduplicate_videos (videos : List Video) : List Video :=
  dedupBy videoKey videos []

/-! ### Chart-event suppression (`extract_data.py` lines 386-424) -/

/-- The quote-like characters of `extract_title`'s regex: ASCII apostrophe
and the two Unicode curly quotes U+2018 / U+2019. -/
def isQuoteCh (c : Char) : Bool :=
  c = Char.ofNat 39 || c = Char.ofNat 8216 || c = Char.ofNat 8217

/-- After an opening quote: accumulate non-quote content until the next quote
character.  Empty content (immediately another quote) restarts the search with
the new quote as opener, exactly as `re.search` tries the next start position. -/
def scanContent (acc : List Char) : List Char → Option (List Char)
  | [] => none
  | c :: rest =>
    if isQuoteCh c then
      if acc.isEmpty then scanContent [] rest else some acc.reverse
    else scanContent (c :: acc) rest

/-- Leftmost match of `['‘’]([^'‘’]+)['‘’]`, returning the group content. -/
def extractQuoted : List Char → Option (List Char)
  | [] => none
  | c :: rest => if isQuoteCh c then scanContent [] rest else extractQuoted rest

/-- Model of `extract_title` from `extract_data.py`: first quoted run, trimmed and
case-folded (note: whitespace-only content yields `some ""`, which callers
treat as no title via Python truthiness). -/
def extract_title (name : String) : Option String :=
  (extractQuoted name.data).map (fun cs => lowerS (trimS (String.mk cs)))

/-- First pass of `filter_chart_events`: `(artist, title)` pairs contributed
by non-chart events with a truthy extracted title. -/
def eventCovered : List Event → List (String × String)
  | [] => []
  | e :: rest =>
    if e.occasion = "Chart" then eventCovered rest
    else
      match extract_title e.name with
      | some t => if t = "" then eventCovered rest else (e.artist, t) :: eventCovered rest
      | none => eventCovered rest

/-- The full coverage set: non-chart event titles plus normalized video titles. -/
def coveredSet (events : List Event) (videos : List Video) : List (String × String) :=
  eventCovered events ++ videos.map (fun v => (v.artist, lowerS (trimS v.title)))

/-- The per-event keep decision of the final loop of `filter_chart_events`:
a chart event is dropped exactly when its extracted title is truthy and the
`(artist, title)` pair is in the coverage set. -/
def chartKeep (covered : List (String × String)) (e : Event) : Bool :=
  if e.occasion = "Chart" then
    match extract_title e.name with
    | some t => if t ≠ "" ∧ (e.artist, t) ∈ covered then false else true
    | none => true
  else true

/-- Model of `filter_chart_events` from `extract_data.py` (progress counters dropped). -/
def filter_chart_events (events : List Event) (videos : List Video) : List Event :=
  events.filter (chartKeep (coveredSet events videos))

/-! ### Best-of discoverer (`extract_data.py` lines 427-531) -/

/-- Model of `skip_words` from `discover_bestof_artists`. -/
def skipWords : List String := [
  "jazz", "rock", "pop", "soul", "blues", "country", "metal", "punk",
  "hip-hop", "hip hop", "r&b", "christmas", "halloween", "wedding",
  "workout", "summer", "winter", "spring", "fall", "80s", "90s", "70s", "60s",
  "of all time", "concept", "cover", "movie", "film", "festival",
  "brit", "new wave", "alternative", "indie", "latin", "classical",
  "motown", "electric guitar", "acoustic", "psychedelic", "protest",
  "one-hit", "debut", "romantic", "love", "sad", "happy", "karaoke",
  "breakup", "best of", "soundtrack", "duet", "reggae", "dance",
  "power ballad", "road trip", "driving", "running", "birthday",
  "july", "earth day", "thanksgiving", "hannukah", "biking",
  "homecoming", "graduation", "new jack swing", "glastonbury",
  "grammy", "woodstock", "def jam", "fania", "musart", "ecm",
  "solo piano", "ambient", "biopic", "break-up", "live album",
  "boy band", "girl group", "funk", "grunge", "emo", "opera",
  "k-pop", "disco", "synth", "gospel", "spoken word", "anime"]

/-- Keyword alternation of pattern 1, in source order. -/
def kwList1 : List String :=
  ["Songs", "Albums", "Tracks", "Pieces", "Performances", "Vocal Performances",
   "Hits", "Live Albums", "Collaborations", "Deep Cuts"]

/-- Model of `(?:\s*[:\-]|$)` after the keyword of pattern 1. -/
def kwBoundary1 (tail : List Char) : Bool :=
  tail.isEmpty ||
  (match tail.dropWhile isWs with
   | c :: _ => c = ':' || c = '-'
   | [] => false)

/-- At a fixed split point, try pattern 1's keywords in alternation order. -/
def kwHere1 (rest : List Char) : Bool :=
  kwList1.any (fun kw =>
    ciStarts (' ' :: kw.data) rest && kwBoundary1 (rest.drop (kw.length + 1)))

/-- Lazy `(.+?)` of pattern 1: grow the group from one character up, taking
the first split at which a keyword (plus boundary) follows. -/
def scanGroup1 (acc : List Char) : List Char → Option (List Char)
  | [] => none
  | c :: rest =>
    if kwHere1 rest then some (acc ++ [c])
    else scanGroup1 (acc ++ [c]) rest

/-- Pattern 1: `re.match(r'(?:The )?Best (.+?) (?:Songs|...)(?:\s*[:\-]|$)', name, I)`,
returning the raw group. -/
def bestofP1 (name : String) : Option String :=
  let cs := name.data
  let rest? :=
    if ciStarts "The Best ".data cs then some (cs.drop 9)
    else if ciStarts "Best ".data cs then some (cs.drop 5)
    else none
  match rest? with
  | some rest => (scanGroup1 [] rest).map String.mk
  | none => none

/-- Lazy group of pattern 2: first split followed by ` In 20 Songs` / ` In 20 Quotes`. -/
def scanGroup2 (acc : List Char) : List Char → Option (List Char)
  | [] => none
  | c :: rest =>
    if ciStarts " In 20 Songs".data rest || ciStarts " In 20 Quotes".data rest then
      some (acc ++ [c])
    else scanGroup2 (acc ++ [c]) rest

/-- Pattern 2: `re.match(r'(.+?) In 20 (?:Songs|Quotes)', name, I)`, raw group. -/
def bestofP2 (name : String) : Option String :=
  (scanGroup2 [] name.data).map String.mk

/-- Model of `candidate.split(':')[-1]`: the segment after the last colon. -/
def afterLastColon (cs : List Char) : List Char :=
  (cs.reverse.takeWhile (fun c => c ≠ ':')).reverse

/-- Pattern 2 post-processing: strip, then drop an optional colon-prefixed
segment (`if ':' in candidate: candidate = candidate.split(':')[-1].strip()`). -/
def p2post (x : String) : String :=
  let c := trimS x
  if subStr [':'] c.data then trimS (String.mk (afterLastColon c.data)) else c

/-- Model of `\s*[:\-]`: optional whitespace then a colon or hyphen. -/
def colonDash (t : List Char) : Bool :=
  match t.dropWhile isWs with
  | c :: _ => c = ':' || c = '-'
  | [] => false

/-- Keyword alternation of pattern 3. -/
def kwList3 : List String := ["Songs", "Albums", "Tracks", "Guide"]

/-- Tail of pattern 3 after the group: `(?:\s+(?:Songs|Albums|Tracks|Guide))?\s*[:\-]`,
trying the optional keyword segment first (greedy option), then without it. -/
def p3boundary (rest : List Char) : Bool :=
  (match rest with
   | c :: _ =>
     isWs c &&
     (let afterWs := rest.dropWhile isWs
      kwList3.any (fun kw => ciStarts kw.data afterWs && colonDash (afterWs.drop kw.length)))
   | [] => false) ||
  colonDash rest

/-- Lazy group of pattern 3. -/
def scanGroup3 (acc : List Char) : List Char → Option (List Char)
  | [] => none
  | c :: rest =>
    if p3boundary rest then some (acc ++ [c])
    else scanGroup3 (acc ++ [c]) rest

/-- Pattern 3: `re.match(r'Essential (.+?)(?:\s+(?:Songs|Albums|Tracks|Guide))?\s*[:\-]', name, I)`. -/
def bestofP3 (name : String) : Option String :=
  if ciStarts "Essential ".data name.data then
    (scanGroup3 [] (name.data.drop 10)).map String.mk
  else none

/-- Lazy group of pattern 4's `(.+?)(?:\.|$)`: content up to the first period,
or the whole remainder; requires at least one character. -/
def p4group : List Char → Option (List Char)
  | [] => none
  | c :: rest => some (c :: rest.takeWhile (fun d => d ≠ '.'))

/-- Head alternation of pattern 4 applied at a fixed position: consume
`Things You (?:Never |Didn.t )?Know` or `Facts`, returning the remainder. -/
def p4head (cs : List Char) : Option (List Char) :=
  if ciStarts "Things You ".data cs then
    let r := cs.drop 11
    if ciStarts "Never ".data r && ciStarts "Know".data (r.drop 6) then some (r.drop 10)
    else if ciStarts "Didn".data r && (r.get? 4 ≠ some (Char.ofNat 10) && r.get? 4 ≠ none) &&
            (r.get? 5 = some 't' || r.get? 5 = some 'T') &&
            r.get? 6 = some ' ' && ciStarts "Know".data (r.drop 7) then some (r.drop 11)
    else if ciStarts "Know".data r then some (r.drop 4)
    else none
  else if ciStarts "Facts".data cs then some (cs.drop 5)
  else none

/-- Pattern 4 body at a fixed start: head, a space, optional `About `, group. -/
def p4here (cs : List Char) : Option (List Char) :=
  match p4head cs with
  | none => none
  | some r =>
    match r with
    | c :: r' =>
      if c = ' ' then
        if ciStarts "About ".data r' then
          match p4group (r'.drop 6) with
          | some g => some g
          | none => p4group r'
        else p4group r'
      else none
    | [] => none

/-- Pattern 4: `re.search(r'(?:Things You (?:Never |Didn.t )?Know|Facts) (?:About )?(.+?)(?:\.|$)', name, I)`
(a search, not an anchored match): leftmost start position wins. -/
def p4search : List Char → Option (List Char)
  | [] => none
  | c :: rest =>
    match p4here (c :: rest) with
    | some g => some g
    | none => p4search rest

def bestofP4 (name : String) : Option String :=
  (p4search name.data).map String.mk

/-- Keyword alternation of pattern 5 (no trailing boundary in the regex). -/
def kwList5 : List String := ["Songs", "Albums", "Hits"]

def kwHere5 (rest : List Char) : Bool :=
  kwList5.any (fun kw => ciStarts (' ' :: kw.data) rest)

def scanGroup5 (acc : List Char) : List Char → Option (List Char)
  | [] => none
  | c :: rest =>
    if kwHere5 rest then some (acc ++ [c])
    else scanGroup5 (acc ++ [c]) rest

/-- Pattern 5: `re.match(r'(?:The )?Greatest (.+?) (?:Songs|Albums|Hits)', name, I)`. -/
def bestofP5 (name : String) : Option String :=
  let cs := name.data
  let rest? :=
    if ciStarts "The Greatest ".data cs then some (cs.drop 13)
    else if ciStarts "Greatest ".data cs then some (cs.drop 9)
    else none
  match rest? with
  | some rest => (scanGroup5 [] rest).map String.mk
  | none => none

/-- Model of `any(w in artist.lower() for w in skip_words)`. -/
def hasSkipWord (artist : String) : Bool :=
  skipWords.any (fun w => subStr w.data (lowerS artist).data)

/-- Model of `re.match(r'^\d{4}', artist)`. -/
def startsYear (artist : String) : Bool :=
  match artist.data with
  | a :: b :: c :: d :: _ => a.isDigit && b.isDigit && c.isDigit && d.isDigit
  | _ => false

/-- Model of `re.match(r'^[\d\s]+$', artist)`: nonempty, all digits or whitespace. -/
def allDigitSpace (artist : String) : Bool :=
  !artist.data.isEmpty && artist.data.all (fun c => c.isDigit || isWs c)

/-- The rejection filter applied after pattern extraction. -/
def rejectArtist (artist : String) : Bool :=
  hasSkipWord artist || startsYear artist || allDigitSpace artist ||
  artist.length < 2 || artist.length > 50

/-- The cascade state of `discover_bestof_artists`: the `artist` variable
with Python falsiness (`""` and unset are both falsy), plus the score set
alongside it.  Each later pattern is guarded by `if not artist:`, so a
pattern whose captured group strips to the empty string falls through to the
next pattern exactly like a non-match. -/
def bestofStep (prev : String × Nat) (hit : Option (String × Nat)) : String × Nat :=
  if prev.1 = "" then
    match hit with
    | some r => r
    | none => prev
  else prev

/-- The pattern cascade of `discover_bestof_artists` (lines 460-499): the
five patterns in priority order, re-dispatching whenever the artist variable
is still falsy (never matched, or matched with an empty-after-strip group). -/
def bestofPick (name : String) : String × Nat :=
  let s0 : String × Nat := ("", 0)
  let s1 := bestofStep s0 ((bestofP1 name).map (fun x => (trimS x, 80)))
  let s2 := bestofStep s1 ((bestofP2 name).map (fun x => (p2post x, 100)))
  let s3 := bestofStep s2 ((bestofP3 name).map (fun x => (trimS x, 70)))
  let s4 := bestofStep s3 ((bestofP4 name).map (fun x => (trimS x, 60)))
  bestofStep s4 ((bestofP5 name).map (fun x => (trimS x, 50)))

/-- The per-row artist/score extraction of `discover_bestof_artists`
(lines 460-510): the pattern cascade, then `if not artist: continue`, then
the skip filter. -/
def bestof_classify (name : String) : Option (String × Nat) :=
  let picked := bestofPick name
  if picked.1 = "" then none
  else if rejectArtist picked.1 then none else some picked

/-- The row gate of `discover_bestof_artists`: the feature link must be a
real link on the recognized host (`'udiscovermusic.com' not in feat_link`
rows are skipped before any pattern runs). -/
def linkHostOk (link : String) : Bool :=
  !(link = "" || link = "..." || link = "None") && subStr "udiscovermusic.com".data link.data

/-- One row of `discover_bestof_artists`: gate on the link, then classify. -/
def bestof_classify_row (name link : String) : Option (String × Nat) :=
  if linkHostOk link then bestof_classify name else none

/-! ### Birthday fusion engine (`extract_data.py` `main`, lines 573-727)

The `birthdays` dict is modelled as an insertion-ordered association list
with unique keys (Python dict semantics): value update keeps position,
new keys append. -/

/-- A birthday record.  Both editorial seeding and the scraped merge always
set `birthYear`/`month`/`day`; the remaining fields are optional. -/
structure Bday where
  birthYear : Nat
  month : Nat
  day : Nat
  articleUrl : Option String
  artistPageUrl : Option String
  bandName : Option String
  memberName : Option String
deriving DecidableEq

/-- The `birthdays` dict. -/
def BMap : Type := List (String × Bday)

/-- Model of `birthdays[k]` (first occurrence). -/
def getEntry : BMap → String → Option Bday
  | [], _ => none
  | (k', v) :: rest, k => if k' = k then some v else getEntry rest k

/-- Model of `k in birthdays`. -/
def hasKey (m : BMap) (k : String) : Bool := (getEntry m k).isSome

/-- Model of `birthdays[k] = v`: replace in place if present, else append. -/
def setEntry : BMap → String → Bday → BMap
  | [], k, v => [(k, v)]
  | (k', v') :: rest, k, v =>
    if k' = k then (k, v) :: rest else (k', v') :: setEntry rest k v

/-- Model of `birthdays[k][field] = ...`: modify the value stored under `k` (no-op
when the key is absent, a situation the callers below never create). -/
def modifyEntry : BMap → String → (Bday → Bday) → BMap
  | [], _, _ => []
  | (k', v') :: rest, k, f =>
    if k' = k then (k', f v') :: rest else (k', v') :: modifyEntry rest k f

/-- Generic lookup in a string-keyed association list (models `.get`). -/
def lookupPair : List (String × String) → String → Option String
  | [], _ => none
  | (k, v) :: rest, q => if k = q then some v else lookupPair rest q

/-- Shared body of the two article-attachment passes: if the artist has a
record and it lacks `articleUrl`, fill it in; otherwise leave the map alone. -/
def attachArticleIfMissing (bd : BMap) (artist url : String) : BMap :=
  match getEntry bd artist with
  | some r =>
    if r.articleUrl = none then
      modifyEntry bd artist (fun r => { r with articleUrl := some url })
    else bd
  | none => bd

/-- Lines 576-579: attach best-of article URLs
(`if artist in birthdays and 'articleUrl' not in birthdays[artist]`). -/
def attach_bestof (bestof : List (String × String)) (bd : BMap) : BMap :=
  bestof.foldl (fun bd p => attachArticleIfMissing bd p.1 p.2) bd

/-- Lines 610-614: second-pass overview-article attachment.  The scoring scan
that builds `best_articles` never touches `birthdays` and only produces keys
already in it (it iterates `for artist in birthdays`), so it is taken here as
an input list; the attachment checks only `'articleUrl' not in birthdays[artist]`. -/
def second_pass_attach (bestArticles : List (String × String)) (bd : BMap) : BMap :=
  bestArticles.foldl (fun bd p => attachArticleIfMissing bd p.1 p.2) bd

/-- The alias scan of lines 642-646: first alias whose canonical form is this
artist and which is present in the lowercased page directory. -/
def firstAlias : List (String × String) → List (String × String) → String → Option String
  | [], _, _ => none
  | (al, canon) :: rest, pagesLower, artist =>
    if canon = artist then
      match lookupPair pagesLower al with
      | some url => some url
      | none => firstAlias rest pagesLower artist
    else firstAlias rest pagesLower artist

/-- Page URL for one birthday key: direct case-insensitive lookup, then aliases. -/
def pageUrlFor (pagesLower aliases : List (String × String)) (artist : String) : Option String :=
  match lookupPair pagesLower (lowerS artist) with
  | some url => some url
  | none => firstAlias aliases pagesLower artist

/-- Lines 633-647: attach artist-page URLs to every birthday record whose key
resolves in the page directory (`pagesLower` maps lowercased names to URLs). -/
def attach_pages (pagesLower aliases : List (String × String)) (bd : BMap) : BMap :=
  bd.map (fun p =>
    match pageUrlFor pagesLower aliases p.1 with
    | some url => (p.1, { p.2 with artistPageUrl := some url })
    | none => p)

/-- One row of `artists_missing_birthdays.csv` as loaded by
`load_scraped_birthdays` (the `scraped` list: `birthday` nonempty). -/
structure Scraped where
  artistName : String
  memberName : String
  artistPageUrl : String
  birthday : String
deriving DecidableEq

/-- Model of `re.match(r'(\d{4})-(\d{2})-(\d{2})', birthday)`: a `YYYY-MM-DD` prefix. -/
def parseBirthday (s : String) : Option (Nat × Nat × Nat) :=
  match s.data with
  | y1 :: y2 :: y3 :: y4 :: h1 :: m1 :: m2 :: h2 :: d1 :: d2 :: _ =>
    if y1.isDigit && y2.isDigit && y3.isDigit && y4.isDigit && h1 = '-' &&
       m1.isDigit && m2.isDigit && h2 = '-' && d1.isDigit && d2.isDigit then
      some (((digitVal y1 * 10 + digitVal y2) * 10 + digitVal y3) * 10 + digitVal y4,
            digitVal m1 * 10 + digitVal m2,
            digitVal d1 * 10 + digitVal d2)
    else none
  | _ => none

/-- Zero-padded decimal rendering (`f"{n:0wd}"` for `n ≥ 0`). -/
def pad (w n : Nat) : String :=
  let s := toString n
  String.mk (List.replicate (w - s.length) (Char.ofNat 48)) ++ s

/-- Model of `f"{info['birthYear']:04d}-{info['month']:02d}-{info['day']:02d}"`. -/
def fmtDate (y m d : Nat) : String := pad 4 y ++ "-" ++ pad 2 m ++ "-" ++ pad 2 d

/-- Model of `is_band_member = member_name and member_name != artist_name`. -/
def isBandMember (e : Scraped) : Bool :=
  e.memberName ≠ "" && e.memberName ≠ e.artistName

/-- The compound key a scraped band-member record writes to, when it is one. -/
def bandKeyOf (e : Scraped) : Option String :=
  if isBandMember e then some (e.artistName ++ " — " ++ e.memberName) else none

/-- Lines 718-725: attach the scraped artist-page URL and any best-of article
for the top-level artist name to the entry just created under `key`. -/
def attachScrapedLinks (bestof : List (String × String)) (bd : BMap) (key : String)
    (pageUrl : String) (artistName : String) : BMap :=
  let bd1 :=
    if pageUrl ≠ "" ∧ strStarts pageUrl "http" then
      modifyEntry bd key (fun r => { r with artistPageUrl := some pageUrl })
    else bd
  match lookupPair bestof artistName with
  | some bo => if bo ≠ "" then modifyEntry bd1 key (fun r => { r with articleUrl := some bo }) else bd1
  | none => bd1

/-- The loop of lines 675-727 over scraped entries, threading the map and the
`seen_birthdays` set of `(member-name lowercased, birthday-string)` pairs. -/
def mergeGo (bestof : List (String × String)) :
    BMap → List (String × String) → List Scraped → BMap
  | bd, _, [] => bd
  | bd, seen, e :: rest =>
    match parseBirthday e.birthday with
    | none => mergeGo bestof bd seen rest
    | some (y, m, d) =>
      let dk := (lowerS e.memberName, e.birthday)
      if dk ∈ seen then mergeGo bestof bd seen rest
      else
        let seen' := dk :: seen
        if isBandMember e then
          let key := e.artistName ++ " — " ++ e.memberName
          let bd1 := setEntry bd key
            ⟨y, m, d, none, none, some e.artistName, some e.memberName⟩
          mergeGo bestof (attachScrapedLinks bestof bd1 key e.artistPageUrl e.artistName) seen' rest
        else
          let key := e.artistName
          if hasKey bd key then mergeGo bestof bd seen' rest
          else
            let bd1 := setEntry bd key ⟨y, m, d, none, none, none, none⟩
            mergeGo bestof (attachScrapedLinks bestof bd1 key e.artistPageUrl e.artistName) seen' rest

/-- Lines 669-727: merge scraped birthday records into the birthdays map.
`seen_birthdays` is seeded from the existing records' `(key lowercased,
formatted date)` pairs. -/
def merge_scraped (bestof : List (String × String)) (bd : BMap) (scraped : List Scraped) : BMap :=
  let seen0 := bd.map (fun p => (lowerS p.1, fmtDate p.2.birthYear p.2.month p.2.day))
  mergeGo bestof bd seen0 scraped

/-- The date triple of a record — the fields claim C1 is about. -/
def dates (r : Bday) : Nat × Nat × Nat := (r.birthYear, r.month, r.day)

/-- The date triple stored under a key, if any. -/
def datesAt (m : BMap) (k : String) : Option (Nat × Nat × Nat) :=
  (getEntry m k).map dates

/-! ### Knowledge resolver (`scrape_birthdays.py`)

The Wikipedia/Wikidata client is modelled as a record of four fallible
endpoints (`Except Unit _`), one per `wiki_fetch`-based helper; an `.error`
models any transport or JSON-shape exception raised inside the helper's
`try` block.  Each helper catches exactly as the source does.  Entities are
modelled by the fields the code reads: the English label, the `P31`
instance-of ids, the time string of the first `P569` claim, and the `P527`
member list with its `P582` end-qualifier flags; a Python falsy `{}` entity
is `none`.

This typed layer is the structured-entity client interface of the spec
(`entity(id) → structured entity`), at which the resolution control-flow
claims are settled.  The source, however, post-processes raw JSON values:
a successfully fetched but ill-shaped entity (an empty claim array indexed
by `claims['P569'][0]`, a non-dict claim item fed to `.get`) makes the
accessors raise outside any `try`.  Those error paths are modelled
separately by the raw layer further below (`RawEntity`, `RawWikiClient`,
`find_artist_info_raw`), where accessor results are `Except`-valued. -/

/-- The Wikidata entity fields read by `scrape_birthdays.py`, at the
structured (well-shaped) client interface. -/
structure Entity where
  labelEn : Option String
  p31 : List String
  p569time : Option String
  p527 : List (String × Bool)
deriving DecidableEq

/-- One `{member, birthday}` result pair. -/
structure Member where
  member : String
  birthday : String
deriving DecidableEq

/-- The four network-touching endpoints, each of which can fail. -/
structure WikiClient where
  fetchSearch : String → Except Unit (List String)
  fetchWdid : String → Except Unit (Option String)
  fetchEntity : String → Except Unit (Option Entity)
  fetchHtml : String → Except Unit String

/-- Model of `wiki_search`: any exception (transport or response shape) yields `[]`;
an empty result list is also `[]` (`data[1] if data[1] else []`). -/
def wiki_search (c : WikiClient) (q : String) : List String :=
  match c.fetchSearch q with
  | .error _ => []
  | .ok l => l

/-- Model of `wiki_get_wikidata_id`: exceptions (and a missing `wikibase_item`) yield `None`. -/
def wiki_get_wikidata_id (c : WikiClient) (title : String) : Option String :=
  match c.fetchWdid title with
  | .error _ => none
  | .ok o => o

/-- Model of `wikidata_get_entity`: exceptions yield `{}` (modelled `none`), as does a
response without the entity. -/
def wikidata_get_entity (c : WikiClient) (i : String) : Option Entity :=
  match c.fetchEntity i with
  | .error _ => none
  | .ok o => o

/-- Model of `wiki_get_page_html`: exceptions yield `''`. -/
def wiki_get_page_html (c : WikiClient) (title : String) : String :=
  match c.fetchHtml title with
  | .error _ => ""
  | .ok s => s

/-- Model of `wikidata_get_birth_date`: parse `\+?(\d{4})-(\d{2})-(\d{2})` from the
first `P569` time string; `00` month or day means year-only and is rejected. -/
def wikidata_get_birth_date (e : Entity) : Option String :=
  match e.p569time with
  | none => none
  | some ts =>
    let cs :=
      match ts.data with
      | c :: r => if c = '+' then r else c :: r
      | [] => []
    match cs with
    | y1 :: y2 :: y3 :: y4 :: h1 :: m1 :: m2 :: h2 :: d1 :: d2 :: _ =>
      if y1.isDigit && y2.isDigit && y3.isDigit && y4.isDigit && h1 = '-' &&
         m1.isDigit && m2.isDigit && h2 = '-' && d1.isDigit && d2.isDigit then
        if (m1 = '0' && m2 = '0') || (d1 = '0' && d2 = '0') then none
        else some (String.mk [y1, y2, y3, y4, '-', m1, m2, '-', d1, d2])
      else none
    | _ => none

/-- Model of `wikidata_is_human`: some `P31` claim has id `Q5`. -/
def wikidata_is_human (e : Entity) : Bool :=
  e.p31.any (fun q => q = "Q5")

/-- Model of `wikidata_is_band`: some `P31` claim has one of the four group-type ids. -/
def wikidata_is_band (e : Entity) : Bool :=
  e.p31.any (fun q => q = "Q215380" || q = "Q2088357" || q = "Q5741069" || q = "Q4438121")

/-- Model of `wikidata_get_members`: member ids from `P527`, current members (no
`P582` end qualifier) first, capped at `MAX_BAND_MEMBERS = 3`, topped up
from former members. -/
def wikidata_get_members (e : Entity) : List String :=
  let ids := e.p527.filter (fun p => p.1 ≠ "")
  let current := (ids.filter (fun p => !p.2)).map (fun p => p.1)
  let former := (ids.filter (fun p => p.2)).map (fun p => p.1)
  let result := current.take 3
  if result.length < 3 then result ++ former.take (3 - result.length) else result

/-! #### `extract_birthday_from_html` (lines 161-182) -/

/-- The literal `class="bday">` of the microformat regex. -/
def bdayLit : List Char :=
  ['c', 'l', 'a', 's', 's', '='] ++ [Char.ofNat 34] ++ ['b', 'd', 'a', 'y'] ++
  [Char.ofNat 34, Char.ofNat 62]

/-- After the literal: `(\d{4}-\d{2}-\d{2})<`. -/
def bdayAfterLit : List Char → Option String
  | y1 :: y2 :: y3 :: y4 :: h1 :: m1 :: m2 :: h2 :: d1 :: d2 :: lt :: _ =>
    if y1.isDigit && y2.isDigit && y3.isDigit && y4.isDigit && h1 = '-' &&
       m1.isDigit && m2.isDigit && h2 = '-' && d1.isDigit && d2.isDigit &&
       lt = Char.ofNat 60 then
      some (String.mk [y1, y2, y3, y4, '-', m1, m2, '-', d1, d2])
    else none
  | _ => none

/-- Model of `re.search(r'class="bday">(\d{4}-\d{2}-\d{2})<', html)`. -/
def bdayClassSearch : List Char → Option String
  | [] => none
  | c :: rest =>
    if listStarts bdayLit (c :: rest) then
      match bdayAfterLit ((c :: rest).drop 13) with
      | some d => some d
      | none => bdayClassSearch rest
    else bdayClassSearch rest

/-- Scan to the first `>` requiring at least one preceding character
(the `[^>]+` of the tag regex); `none` when the first character is already
`>` or no `>` follows. -/
def gtScan : List Char → Option (List Char)
  | [] => none
  | c :: r => if c = Char.ofNat 62 then some r else gtScan r

def gtSplit : List Char → Option (List Char)
  | [] => none
  | c :: r => if c = Char.ofNat 62 then none else gtScan r

/-- Model of `re.sub(r'<[^>]+>', ' ', html)` scan, written with a step-count bound so
that it is structurally recursive (every step consumes at least one input
character, so a bound equal to the input length never runs out). -/
def stripTagsGo : Nat → List Char → List Char
  | 0, l => l
  | _ + 1, [] => []
  | f + 1, c :: rest =>
    if c = Char.ofNat 60 then
      match gtSplit rest with
      | some rest' => Char.ofNat 32 :: stripTagsGo f rest'
      | none => c :: stripTagsGo f rest
    else c :: stripTagsGo f rest

/-- Model of `re.sub(r'<[^>]+>', ' ', html)`: each `<...>` span (nonempty, no inner `>`)
becomes a single space; unmatched characters are copied. -/
def stripTags (l : List Char) : List Char := stripTagsGo l.length l

/-- Python `\w` (ASCII part). -/
def isWordCh (c : Char) : Bool := c.isAlpha || c.isDigit || c = '_'

/-- Model of `,?\s+(\d{4})`: optional comma, mandatory whitespace, four digits;
returns the year's digit characters. -/
def parseCommaYear (l : List Char) : Option (List Char) :=
  let l1 :=
    match l with
    | c :: r => if c = ',' then r else c :: r
    | [] => []
  match l1 with
  | c :: r =>
    if isWs c then
      match r.dropWhile isWs with
      | a :: b :: c2 :: d :: _ =>
        if a.isDigit && b.isDigit && c2.isDigit && d.isDigit then some [a, b, c2, d] else none
      | _ => none
    else none
  | [] => none

/-- Model of `(\d{1,2}),?\s+(\d{4})` with the greedy two-digit day tried first. -/
def parseDayYear (l : List Char) : Option (Nat × List Char) :=
  match l with
  | a :: b :: r =>
    if a.isDigit then
      if b.isDigit then
        match parseCommaYear r with
        | some y => some (digitVal a * 10 + digitVal b, y)
        | none => (parseCommaYear (b :: r)).map (fun y => (digitVal a, y))
      else (parseCommaYear (b :: r)).map (fun y => (digitVal a, y))
    else none
  | _ => none

/-- Model of `(\w+)\s+(\d{1,2}),?\s+(\d{4})` at a fixed position: greedy word, then
mandatory whitespace, then day and year. -/
def parseWordDayYear (l : List Char) : Option (List Char × Nat × List Char) :=
  let word := l.takeWhile isWordCh
  if word.isEmpty then none
  else
    let r := l.drop word.length
    match r with
    | c :: r' =>
      if isWs c then (parseDayYear (r'.dropWhile isWs |> fun x => x)).map (fun p => (word, p))
      else none
    | [] => none

/-- The lazy bounded gap `[^)]{0,40}?` before the month-first group: try gap
lengths ascending; gap characters must not be `)`. -/
def bornGapScan1 : Nat → List Char → Option (List Char × Nat × List Char)
  | fuel, l =>
    match parseWordDayYear l with
    | some r => some r
    | none =>
      match fuel, l with
      | f + 1, c :: rest => if c = ')' then none else bornGapScan1 f rest
      | _, _ => none

/-- Model of `re.search` for `born[^)]{0,40}?(\w+)\s+(\d{1,2}),?\s+(\d{4})` (ci). -/
def bornSearch1 : List Char → Option (List Char × Nat × List Char)
  | [] => none
  | c :: rest =>
    if ciStarts "born".data (c :: rest) then
      match bornGapScan1 40 ((c :: rest).drop 4) with
      | some r => some r
      | none => bornSearch1 rest
    else bornSearch1 rest

/-- The month-name table of `extract_birthday_from_html`. -/
def monthsTable : List (String × String) := [
  ("january", "01"), ("february", "02"), ("march", "03"), ("april", "04"),
  ("may", "05"), ("june", "06"), ("july", "07"), ("august", "08"),
  ("september", "09"), ("october", "10"), ("november", "11"), ("december", "12")]

/-- Month-first textual fallback: leftmost regex match, then the month-name
check (`if m and m.group(1).lower() in months`); an invalid month falls
through to the day-first pattern, without retrying later positions. -/
def bornMonthFirstDate (text : List Char) : Option String :=
  match bornSearch1 text with
  | none => none
  | some (word, d, y) =>
    match lookupPair monthsTable (lowerS (String.mk word)) with
    | some mm => some (String.mk y ++ "-" ++ mm ++ "-" ++ pad 2 d)
    | none => none

/-- Model of `\s+(\w+)\s+(\d{4})` after the day of the day-first pattern. -/
def parseWsWordYear (l : List Char) : Option (List Char × List Char) :=
  match l with
  | c :: r =>
    if isWs c then
      let r1 := r.dropWhile isWs
      let word := r1.takeWhile isWordCh
      if word.isEmpty then none
      else
        match r1.drop word.length with
        | c2 :: r2 =>
          if isWs c2 then
            match r2.dropWhile isWs with
            | a :: b :: c3 :: d :: _ =>
              if a.isDigit && b.isDigit && c3.isDigit && d.isDigit then some (word, [a, b, c3, d])
              else none
            | _ => none
          else none
        | [] => none
    else none
  | [] => none

/-- Model of `(\d{1,2})\s+(\w+)\s+(\d{4})` at a fixed position, two-digit day first. -/
def parseDayWordYear (l : List Char) : Option (Nat × List Char × List Char) :=
  match l with
  | a :: b :: r =>
    if a.isDigit then
      if b.isDigit then
        match parseWsWordYear r with
        | some wy => some (digitVal a * 10 + digitVal b, wy)
        | none => (parseWsWordYear (b :: r)).map (fun wy => (digitVal a, wy))
      else (parseWsWordYear (b :: r)).map (fun wy => (digitVal a, wy))
    else none
  | _ => none

def bornGapScan2 : Nat → List Char → Option (Nat × List Char × List Char)
  | fuel, l =>
    match parseDayWordYear l with
    | some r => some r
    | none =>
      match fuel, l with
      | f + 1, c :: rest => if c = ')' then none else bornGapScan2 f rest
      | _, _ => none

/-- Model of `re.search` for `born[^)]{0,40}?(\d{1,2})\s+(\w+)\s+(\d{4})` (ci). -/
def bornSearch2 : List Char → Option (Nat × List Char × List Char)
  | [] => none
  | c :: rest =>
    if ciStarts "born".data (c :: rest) then
      match bornGapScan2 40 ((c :: rest).drop 4) with
      | some r => some r
      | none => bornSearch2 rest
    else bornSearch2 rest

/-- Day-first textual fallback with the month-name check. -/
def bornDayFirstDate (text : List Char) : Option String :=
  match bornSearch2 text with
  | none => none
  | some (d, word, y) =>
    match lookupPair monthsTable (lowerS (String.mk word)) with
    | some mm => some (String.mk y ++ "-" ++ mm ++ "-" ++ pad 2 d)
    | none => none

/-- Model of `extract_birthday_from_html`: microformat first, then the two textual
patterns over the tag-stripped page text. -/
def extract_birthday_from_html (html : String) : Option String :=
  match bdayClassSearch html.data with
  | some d => some d
  | none =>
    let text := stripTags html.data
    match bornMonthFirstDate text with
    | some r => some r
    | none => bornDayFirstDate text

/-! #### `find_artist_info` (lines 185-254) -/

/-- The structured-date-then-page-scrape lookup shared by the solo and
unknown-type branches: `bday = wikidata_get_birth_date(entity)`, falling back
to the page HTML when the page text is nonempty. -/
def birthdayWithFallback (htmlF : String → String) (e : Entity) (title : String) : Option String :=
  match wikidata_get_birth_date e with
  | some b => some b
  | none =>
    let h := htmlF title
    if h = "" then none else extract_birthday_from_html h

/-- The member loop of the band branch: fetch each member entity, name it by
label (falling back to the id for a missing or empty label), keep humans with
a structured birth date, in iteration order. -/
def bandMembersLoop (entityF : String → Option Entity) : List String → List Member
  | [] => []
  | mid :: rest =>
    match entityF mid with
    | none => bandMembersLoop entityF rest
    | some me =>
      let mname :=
        match me.labelEn with
        | some l => if l = "" then mid else l
        | none => mid
      if wikidata_is_human me then
        match wikidata_get_birth_date me with
        | some b => ⟨mname, b⟩ :: bandMembersLoop entityF rest
        | none => bandMembersLoop entityF rest
      else bandMembersLoop entityF rest

/-- The band branch (lines 221-244); the `time.sleep` pacing has no
observable effect on the result and is dropped. -/
def resolveBand (entityF : String → Option Entity) (e : Entity) (title : String) :
    List Member × String :=
  let mids := wikidata_get_members e
  if mids.isEmpty then ([], "band, no members listed (" ++ title ++ ")")
  else
    let members := bandMembersLoop entityF (mids.take 3)
    if members.isEmpty then ([], "band, no member birthdays (" ++ title ++ ")")
    else (members, "band with " ++ toString members.length ++ "/3 members (" ++ title ++ ")")

/-- The candidate loop over `results[:3]` (lines 200-252). -/
def candLoop (wdidF : String → Option String) (entityF : String → Option Entity)
    (htmlF : String → String) (name : String) : List String → List Member × String
  | [] => ([], "no date in any result")
  | title :: rest =>
    match wdidF title with
    | none => candLoop wdidF entityF htmlF name rest
    | some w =>
      match entityF w with
      | none => candLoop wdidF entityF htmlF name rest
      | some e =>
        if wikidata_is_human e then
          match birthdayWithFallback htmlF e title with
          | some b => ([⟨name, b⟩], "solo (" ++ title ++ ")")
          | none => ([], "solo, no date (" ++ title ++ ")")
        else if wikidata_is_band e then resolveBand entityF e title
        else
          match birthdayWithFallback htmlF e title with
          | some b => ([⟨name, b⟩], "other (" ++ title ++ ")")
          | none => candLoop wdidF entityF htmlF name rest

/-- Model of `find_artist_info` over explicit client capabilities: the cascading
search (bare name, `" musician"`, `" band"`), then the candidate loop. -/
def findArtistInfoCore (searchF : String → List String) (wdidF : String → Option String)
    (entityF : String → Option Entity) (htmlF : String → String) (name : String) :
    List Member × String :=
  let r0 := searchF name
  let r1 := if r0.isEmpty then searchF (name ++ " musician") else r0
  let r2 := if r1.isEmpty then searchF (name ++ " band") else r1
  if r2.isEmpty then ([], "no Wikipedia page")
  else candLoop wdidF entityF htmlF name (r2.take 3)

/-- Model of `find_artist_info(name)` against a concrete client. -/
def find_artist_info (c : WikiClient) (name : String) : List Member × String :=
  findArtistInfoCore (wiki_search c) (wiki_get_wikidata_id c) (wikidata_get_entity c)
    (wiki_get_page_html c) name

/-- A candidate page that cannot decide the resolution: it fails to resolve
to an id, resolves to an empty entity, or is of unknown type with no
recoverable date — the loop moves past it. -/
def candSkips (c : WikiClient) (t : String) : Prop :=
  wiki_get_wikidata_id c t = none ∨
  (∃ w, wiki_get_wikidata_id c t = some w ∧ wikidata_get_entity c w = none) ∨
  (∃ w e, wiki_get_wikidata_id c t = some w ∧ wikidata_get_entity c w = some e ∧
    wikidata_is_human e = false ∧ wikidata_is_band e = false ∧
    birthdayWithFallback (wiki_get_page_html c) e t = none)

/-! #### Raw response layer (failure policy of `scrape_birthdays.py`)

The `try` blocks of the source wrap only the fetch helpers; the values they
return are raw JSON.  The accessors (`wikidata_get_birth_date`,
`wikidata_is_human`, `wikidata_is_band`, `wikidata_get_members`) then
dereference those values outside any `try` in `find_artist_info`'s solo,
band and unknown-type branches: `claims['P569'][0]` raises `IndexError` on a
present-but-empty claim array, and `claim.get(...)` raises `AttributeError`
on a non-dict claim item.  This layer models exactly those shapes: a claim
array entry is either a dict (whose nested `.get` chain yields its payload
string, defaulting to `""`, and its `P582` end-qualifier flag) or a non-dict
value on which attribute access raises.  Accessors are `Except`-valued, and
`find_artist_info_raw` propagates their errors, as the source does; the
per-member `try ... except: continue` of the band branch is the one place
such errors are caught. -/

/-- One entry of a raw Wikidata claim array. -/
inductive RawClaim where
  | dict (payload : String) (hasEnd : Bool) : RawClaim
  | nondict : RawClaim
deriving DecidableEq

/-- A raw (dict-shaped) entity whose claim arrays may be absent, empty, or
hold non-dict items; the label field is kept structured as in the typed
layer. -/
structure RawEntity where
  labelEn : Option String
  p31 : Option (List RawClaim)
  p569 : Option (List RawClaim)
  p527 : Option (List RawClaim)
deriving DecidableEq

/-- The four network-touching endpoints over raw entities. -/
structure RawWikiClient where
  fetchSearch : String → Except Unit (List String)
  fetchWdid : String → Except Unit (Option String)
  fetchEntity : String → Except Unit (Option RawEntity)
  fetchHtml : String → Except Unit String

/-- Model of `wiki_search` over the raw client (exceptions caught to `[]`). -/
def raw_wiki_search (c : RawWikiClient) (q : String) : List String :=
  match c.fetchSearch q with
  | .error _ => []
  | .ok l => l

/-- Model of `wiki_get_wikidata_id` over the raw client (exceptions caught to `None`). -/
def raw_wiki_get_wikidata_id (c : RawWikiClient) (title : String) : Option String :=
  match c.fetchWdid title with
  | .error _ => none
  | .ok o => o

/-- Model of `wikidata_get_entity` over the raw client (exceptions caught to `{}`). -/
def raw_wikidata_get_entity (c : RawWikiClient) (i : String) : Option RawEntity :=
  match c.fetchEntity i with
  | .error _ => none
  | .ok o => o

/-- Model of `wiki_get_page_html` over the raw client (exceptions caught to `''`). -/
def raw_wiki_get_page_html (c : RawWikiClient) (title : String) : String :=
  match c.fetchHtml title with
  | .error _ => ""
  | .ok s => s

/-- The `\+?(\d{4})-(\d{2})-(\d{2})` parse of a `P569` time string with the
`00` month/day rejection — the pure tail of `wikidata_get_birth_date`
(lines 85-91), shared with the raw accessor. -/
def parseBirthTime (ts : String) : Option String :=
  let cs :=
    match ts.data with
    | c :: r => if c = '+' then r else c :: r
    | [] => []
  match cs with
  | y1 :: y2 :: y3 :: y4 :: h1 :: m1 :: m2 :: h2 :: d1 :: d2 :: _ =>
    if y1.isDigit && y2.isDigit && y3.isDigit && y4.isDigit && h1 = '-' &&
       m1.isDigit && m2.isDigit && h2 = '-' && d1.isDigit && d2.isDigit then
      if (m1 = '0' && m2 = '0') || (d1 = '0' && d2 = '0') then none
      else some (String.mk [y1, y2, y3, y4, '-', m1, m2, '-', d1, d2])
    else none
  | _ => none

/-- Raw `wikidata_get_birth_date`: absent `P569` is `None`; a present but
empty claim array raises (`claims['P569'][0]` — `IndexError`); a non-dict
first claim raises in the `.get` chain; otherwise the time payload is parsed. -/
def raw_get_birth_date (e : RawEntity) : Except Unit (Option String) :=
  match e.p569 with
  | none => .ok none
  | some [] => .error ()
  | some (RawClaim.nondict :: _) => .error ()
  | some (RawClaim.dict ts _ :: _) => .ok (parseBirthTime ts)

/-- The `for claim in claims[...]` scan of `wikidata_is_human`/`is_band`:
returns `true` at the first claim whose id is among `qids`, raises at the
first non-dict claim reached before that. -/
def rawHasQid (qids : List String) : List RawClaim → Except Unit Bool
  | [] => .ok false
  | RawClaim.nondict :: _ => .error ()
  | RawClaim.dict q _ :: rest => if q ∈ qids then .ok true else rawHasQid qids rest

/-- Raw `wikidata_is_human`. -/
def raw_is_human (e : RawEntity) : Except Unit Bool :=
  match e.p31 with
  | none => .ok false
  | some claims => rawHasQid ["Q5"] claims

/-- Raw `wikidata_is_band`. -/
def raw_is_band (e : RawEntity) : Except Unit Bool :=
  match e.p31 with
  | none => .ok false
  | some claims => rawHasQid ["Q215380", "Q2088357", "Q5741069", "Q4438121"] claims

/-- The `P527` scan of `wikidata_get_members`: skip empty ids, collect
`(qid, has-end-qualifier)` pairs, raise at a non-dict claim. -/
def rawMemberPairs : List RawClaim → Except Unit (List (String × Bool))
  | [] => .ok []
  | RawClaim.nondict :: _ => .error ()
  | RawClaim.dict q he :: rest =>
    match rawMemberPairs rest with
    | .error u => .error u
    | .ok l => .ok (if q = "" then l else (q, he) :: l)

/-- The current-first, cap-3 member selection of `wikidata_get_members`
(lines 137-145), over already-collected `(qid, hasEnd)` pairs. -/
def selectMembers (ids : List (String × Bool)) : List String :=
  let current := (ids.filter (fun p => !p.2)).map (fun p => p.1)
  let former := (ids.filter (fun p => p.2)).map (fun p => p.1)
  let result := current.take 3
  if result.length < 3 then result ++ former.take (3 - result.length) else result

/-- Raw `wikidata_get_members`. -/
def raw_get_members (e : RawEntity) : Except Unit (List String) :=
  match e.p527 with
  | none => .ok (selectMembers [])
  | some claims =>
    match rawMemberPairs claims with
    | .error u => .error u
    | .ok ids => .ok (selectMembers ids)

/-- Raw structured-date-then-page-scrape lookup of the solo and unknown-type
branches; an accessor error propagates. -/
def rawBirthdayWithFallback (htmlF : String → String) (e : RawEntity) (title : String) :
    Except Unit (Option String) :=
  match raw_get_birth_date e with
  | .error u => .error u
  | .ok (some b) => .ok (some b)
  | .ok none =>
    let h := htmlF title
    .ok (if h = "" then none else extract_birthday_from_html h)

/-- One member iteration of the band branch, up to its `try`: fetch the
member entity, name it by label, keep it when human with a structured date.
An `.error` here models an exception reaching the per-member `except`. -/
def rawMemberResolve (entityF : String → Option RawEntity) (mid : String) :
    Except Unit (Option Member) :=
  match entityF mid with
  | none => .ok none
  | some me =>
    let mname :=
      match me.labelEn with
      | some l => if l = "" then mid else l
      | none => mid
    match raw_is_human me with
    | .error u => .error u
    | .ok false => .ok none
    | .ok true =>
      match raw_get_birth_date me with
      | .error u => .error u
      | .ok (some b) => .ok (some ⟨mname, b⟩)
      | .ok none => .ok none

/-- The member loop of the band branch: the per-member
`try ... except Exception: continue` catches any member-level error, so the
loop itself is total. -/
def rawBandMembersLoop (entityF : String → Option RawEntity) : List String → List Member
  | [] => []
  | mid :: rest =>
    match rawMemberResolve entityF mid with
    | .error _ => rawBandMembersLoop entityF rest
    | .ok none => rawBandMembersLoop entityF rest
    | .ok (some m) => m :: rawBandMembersLoop entityF rest

/-- The candidate loop of `find_artist_info` over raw entities: classifier
and date-accessor errors propagate (no surrounding `try`); only the
per-member errors of the band branch are caught. -/
def candLoopRaw (wdidF : String → Option String) (entityF : String → Option RawEntity)
    (htmlF : String → String) (name : String) :
    List String → Except Unit (List Member × String)
  | [] => .ok ([], "no date in any result")
  | title :: rest =>
    match wdidF title with
    | none => candLoopRaw wdidF entityF htmlF name rest
    | some w =>
      match entityF w with
      | none => candLoopRaw wdidF entityF htmlF name rest
      | some e =>
        match raw_is_human e with
        | .error u => .error u
        | .ok true =>
          match rawBirthdayWithFallback htmlF e title with
          | .error u => .error u
          | .ok (some b) => .ok ([⟨name, b⟩], "solo (" ++ title ++ ")")
          | .ok none => .ok ([], "solo, no date (" ++ title ++ ")")
        | .ok false =>
          match raw_is_band e with
          | .error u => .error u
          | .ok true =>
            match raw_get_members e with
            | .error u => .error u
            | .ok mids =>
              if mids.isEmpty then .ok ([], "band, no members listed (" ++ title ++ ")")
              else
                let members := rawBandMembersLoop entityF (mids.take 3)
                if members.isEmpty then .ok ([], "band, no member birthdays (" ++ title ++ ")")
                else .ok (members,
                  "band with " ++ toString members.length ++ "/3 members (" ++ title ++ ")")
          | .ok false =>
            match rawBirthdayWithFallback htmlF e title with
            | .error u => .error u
            | .ok (some b) => .ok ([⟨name, b⟩], "other (" ++ title ++ ")")
            | .ok none => candLoopRaw wdidF entityF htmlF name rest

/-- Model of `find_artist_info` over the raw client: an `.error` result is an
exception escaping the function. -/
def find_artist_info_raw (c : RawWikiClient) (name : String) :
    Except Unit (List Member × String) :=
  let r0 := raw_wiki_search c name
  let r1 := if r0.isEmpty then raw_wiki_search c (name ++ " musician") else r0
  let r2 := if r1.isEmpty then raw_wiki_search c (name ++ " band") else r1
  if r2.isEmpty then .ok ([], "no Wikipedia page")
  else candLoopRaw (raw_wiki_get_wikidata_id c) (raw_wikidata_get_entity c)
    (raw_wiki_get_page_html c) name (r2.take 3)

/-- Normal return (no escaping exception). -/
def exceptOk {α : Type} : Except Unit α → Bool
  | .ok _ => true
  | .error _ => false

/-- A claim entry the accessors can dereference without raising. -/
def dictClaim : RawClaim → Bool
  | RawClaim.dict _ _ => true
  | RawClaim.nondict => false

/-- A claim array the `for`-loops can scan without raising. -/
def claimsOk : Option (List RawClaim) → Bool
  | none => true
  | some l => l.all dictClaim

/-- A `P569` field `claims['P569'][0]` can index and dereference. -/
def p569Ok : Option (List RawClaim) → Bool
  | none => true
  | some [] => false
  | some (c :: _) => dictClaim c

/-- An entity all of whose accessor paths are exception-free. -/
def wellShapedEntity (e : RawEntity) : Bool :=
  claimsOk e.p31 && p569Ok e.p569 && claimsOk e.p527

/-- A raw client every one of whose calls raises. -/
def rawErrClient : RawWikiClient where
  fetchSearch := fun _ => .error ()
  fetchWdid := fun _ => .error ()
  fetchEntity := fun _ => .error ()
  fetchHtml := fun _ => .error ()

/-! ### Concrete fixtures used by the closed instances below -/

/-- A chart event with no quoted title in its raw name. -/
def evW : Event := ⟨"n1", "A", "Chart", none, 1, 1, none, none⟩

/-- A birthdays map holding a solo record for artist `A` with month 3, day 4. -/
def bdW : BMap := [("A", ⟨1950, 3, 4, none, none, none, none⟩)]

/-- A scraped solo record for the same artist `A` carrying a different date. -/
def sW : Scraped := ⟨"A", "A", "", "1951-05-06"⟩

/-- A birthdays map whose key happens to equal the compound band-member key
`"Foo — Bar"` that a scraped record for band `Foo`, member `Bar` writes to. -/
def bdX : BMap := [("Foo — Bar", ⟨1960, 1, 1, none, none, none, none⟩)]

/-- A scraped band-member record (band `Foo`, member `Bar`) with a new date. -/
def scX : Scraped := ⟨"Foo", "Bar", "", "1970-02-03"⟩

/-- A human entity with a structured birth date. -/
def entH : Entity := ⟨some "Ann Artist", ["Q5"], some "+1950-03-04T00:00:00Z", []⟩

/-- A small deterministic client: searching `"Ann"` yields one candidate page
`T1`, which resolves to the human entity `entH`. -/
def cW : WikiClient where
  fetchSearch := fun q => .ok (if q = "Ann" then ["T1"] else [])
  fetchWdid := fun t => .ok (if t = "T1" then some "W1" else none)
  fetchEntity := fun i => .ok (if i = "W1" then some entH else none)
  fetchHtml := fun _ => .ok ""

/-- A human-classified raw entity whose `P569` claim array is present but
empty: `claims['P569'][0]` raises `IndexError` in `wikidata_get_birth_date`. -/
def entBadP569 : RawEntity :=
  ⟨none, some [RawClaim.dict "Q5" false], some ([] : List RawClaim), none⟩

/-- A raw entity whose `P31` array holds a non-dict item: `claim.get(...)`
raises `AttributeError` in `wikidata_is_human`. -/
def entBadP31 : RawEntity := ⟨none, some [RawClaim.nondict], none, none⟩

/-- A raw client returning the empty-`P569` human entity for its only
candidate page. -/
def cBadW : RawWikiClient where
  fetchSearch := fun q => .ok (if q = "X" then ["T"] else [])
  fetchWdid := fun t => .ok (if t = "T" then some "W" else none)
  fetchEntity := fun i => .ok (if i = "W" then some entBadP569 else none)
  fetchHtml := fun _ => .ok ""

/-- A raw client returning the non-dict-`P31` entity for its only candidate. -/
def cBad2W : RawWikiClient where
  fetchSearch := fun q => .ok (if q = "X" then ["T"] else [])
  fetchWdid := fun t => .ok (if t = "T" then some "W" else none)
  fetchEntity := fun i => .ok (if i = "W" then some entBadP31 else none)
  fetchHtml := fun _ => .ok ""

/-- The raw, well-shaped counterpart of `entH`. -/
def rawEntH : RawEntity :=
  ⟨some "Ann Artist", some [RawClaim.dict "Q5" false],
    some [RawClaim.dict "+1950-03-04T00:00:00Z" false], none⟩

/-- The raw counterpart of the client `cW`. -/
def cRawW : RawWikiClient where
  fetchSearch := fun q => .ok (if q = "Ann" then ["T1"] else [])
  fetchWdid := fun t => .ok (if t = "T1" then some "W1" else none)
  fetchEntity := fun i => .ok (if i = "W1" then some rawEntH else none)
  fetchHtml := fun _ => .ok ""


/-! ## Theorems -/

/-! ### Deduplication (claim C7) -/

theorem dedupBy_idem {α κ : Type} [DecidableEq κ] (key : α → κ) :
    ∀ (l : List α) (seen : List κ),
      dedupBy key (dedupBy key l seen) seen = dedupBy key l seen := by
  intro l
  induction l with
  | nil => intro seen; rfl
  | cons e rest ih =>
    intro seen
    by_cases h : key e ∈ seen
    · simp only [dedupBy, if_pos h]
      exact ih seen
    · simp only [dedupBy, if_neg h]
      rw [ih (key e :: seen)]

/-- C7: for every list of event records and every list of video records,
`deduplicate_events` (resp. `deduplicate_videos`) is idempotent. -/
theorem deduplication_idempotent :
    (∀ events : List Event,
      deduplicate_events (deduplicate_events events) = deduplicate_events events) ∧
    (∀ videos : List Video,
      deduplicate_videos (deduplicate_videos videos) = deduplicate_videos videos) :=
  ⟨fun es => dedupBy_idem eventKey es [], fun vs => dedupBy_idem videoKey vs []⟩

/-! ### Year parsing (claim C4) -/

/-- C4 counterexample: `parse_year` does not reject 1899 — the accepted range
is [1800, 2026], so `parse_year(1899)` returns 1899, not unknown. -/
theorem parse_year_1899_cex :
    parse_year (.vInt 1899) = some 1899 ∧ ¬ parse_year (.vInt 1899) = none := by
  constructor
  · decide
  · decide

/-- C4 (amended): `parse_year` accepts 1899 (the accepted range is the
inclusive [1800, 2026], so 1799 is rejected instead), parses the string
`"2024"` to 2024, maps the sentinel `"TBC"` to unknown, and rejects 2027. -/
theorem parse_year_spec :
    parse_year (.vInt 1899) = some 1899 ∧
    parse_year (.vInt 1799) = none ∧
    parse_year (.vStr "2024") = some 2024 ∧
    parse_year (.vStr "TBC") = none ∧
    parse_year (.vInt 2027) = none := by
  refine ⟨by decide, by decide, by decide, by decide, by decide⟩

/-! ### Resolver on empty input (claim C10) -/

/-- C10: in both strict and loose mode, `match_artist` applied to Python
`None` or to the empty string returns no match (never an error), for every
roster and short-name set. -/
theorem match_artist_empty_none :
    ∀ (tracked shorts : List String) (strict : Bool),
      match_artist tracked shorts none strict = none ∧
      match_artist tracked shorts (some "") strict = none := by
  intro tracked shorts strict
  refine ⟨rfl, ?_⟩
  simp [match_artist]

/-! ### Short-name loose matching (claim C2) -/

/-- C2 counterexample: loose-mode resolution of `"Cold, Cold Heart"` does not
return not-found — the occurrence of `"Heart"` is preceded by a space, which
the short-name pattern accepts, so the roster entry `"Heart"` is returned. -/
theorem loose_cold_cold_heart_cex :
    match_artist TRACKED_ARTISTS SHORT_NAMES (some "Cold, Cold Heart") false = some "Heart" ∧
    ¬ match_artist TRACKED_ARTISTS SHORT_NAMES (some "Cold, Cold Heart") false = none := by
  constructor
  · decide
  · decide

/-- C2 (amended): for every short-name pattern, the loose matcher never
accepts an occurrence that is immediately preceded by an apostrophe (the
scan skips any position whose previous character is `'`); loose resolution of
`"Heart released a new album"` returns `"Heart"`.  But loose resolution of
`"Cold, Cold Heart"` also returns `"Heart"` — the occurrence is preceded by a
space, which the pattern accepts; it is strict mode that rejects that input. -/
theorem short_name_apostrophe_rejection :
    (∀ (pat t : List Char),
      (allowedPrev (some (Char.ofNat 39)) && shortHere pat t) = false) ∧
    (∀ (pat v : List Char),
      shortSearch pat (some (Char.ofNat 39)) v =
        match v with
        | [] => false
        | c :: v' => shortSearch pat (some c) v') ∧
    match_artist TRACKED_ARTISTS SHORT_NAMES (some "Heart released a new album") false = some "Heart" ∧
    match_artist TRACKED_ARTISTS SHORT_NAMES (some "Cold, Cold Heart") false = some "Heart" ∧
    match_artist TRACKED_ARTISTS SHORT_NAMES (some "Cold, Cold Heart") true = none := by
  have hap : allowedPrev (some (Char.ofNat 39)) = false := by decide
  refine ⟨fun pat t => by rw [hap]; rfl, fun pat v => ?_, by decide, by decide, by decide⟩
  cases v with
  | nil => simp [shortSearch, hap]
  | cons c v' => simp [shortSearch, hap]

/-! ### Best-of pattern scoring (claim C6) -/

/-- C6: on a row whose link carries the recognized host marker, the title
`"Elton John In 20 Songs"` is mapped to artist `"Elton John"` with score 100
by pattern 2 (pattern 1 does not match it), while `"The Best Grunge Songs"`
is matched by pattern 1 with candidate `"Grunge"` but rejected because the
candidate contains the skip-word `"grunge"`.  In addition, a pattern hit
whose captured group strips to the empty string is falsy and falls through
to the later patterns: `"Best   Songs: Abba In 20 Songs"` gives an empty
group under pattern 1 yet classifies as `("Abba", 100)` via pattern 2. -/
theorem bestof_scoring_examples :
    bestofP1 "Elton John In 20 Songs" = none ∧
    bestof_classify_row "Elton John In 20 Songs"
      "https://www.udiscovermusic.com/stories/x" = some ("Elton John", 100) ∧
    bestofP1 "The Best Grunge Songs" = some "Grunge" ∧
    hasSkipWord "Grunge" = true ∧
    bestof_classify_row "The Best Grunge Songs"
      "https://www.udiscovermusic.com/stories/y" = none ∧
    bestofP1 "Best   Songs: Abba In 20 Songs" = some " " ∧
    bestof_classify_row "Best   Songs: Abba In 20 Songs"
      "https://www.udiscovermusic.com/stories/z" = some ("Abba", 100) := by
  refine ⟨by decide, by decide, by decide, by decide, by decide, by decide, by decide⟩

/-! ### Knowledge-resolver failure policy (claim C9) -/

theorem rawHasQid_ok (qids : List String) :
    ∀ l : List RawClaim, l.all dictClaim = true → ∃ b, rawHasQid qids l = .ok b := by
  intro l
  induction l with
  | nil => intro _; exact ⟨false, rfl⟩
  | cons c rest ih =>
    intro h
    rw [List.all_cons, Bool.and_eq_true] at h
    cases c with
    | nondict => exact absurd h.1 (by simp [dictClaim])
    | dict q he =>
      by_cases hq : q ∈ qids
      · exact ⟨true, by simp [rawHasQid, hq]⟩
      · obtain ⟨b, hb⟩ := ih h.2
        exact ⟨b, by simp [rawHasQid, hq, hb]⟩

theorem raw_is_human_ok (e : RawEntity) (h : claimsOk e.p31 = true) :
    ∃ b, raw_is_human e = .ok b := by
  rw [raw_is_human]
  cases hp : e.p31 with
  | none => exact ⟨false, rfl⟩
  | some claims =>
    rw [hp] at h
    simp only [claimsOk] at h
    exact rawHasQid_ok ["Q5"] claims h

theorem raw_is_band_ok (e : RawEntity) (h : claimsOk e.p31 = true) :
    ∃ b, raw_is_band e = .ok b := by
  rw [raw_is_band]
  cases hp : e.p31 with
  | none => exact ⟨false, rfl⟩
  | some claims =>
    rw [hp] at h
    simp only [claimsOk] at h
    exact rawHasQid_ok ["Q215380", "Q2088357", "Q5741069", "Q4438121"] claims h

theorem raw_get_birth_date_ok (e : RawEntity) (h : p569Ok e.p569 = true) :
    ∃ o, raw_get_birth_date e = .ok o := by
  rw [raw_get_birth_date]
  cases hp : e.p569 with
  | none => exact ⟨none, rfl⟩
  | some l =>
    rw [hp] at h
    cases l with
    | nil => simp [p569Ok] at h
    | cons c rest =>
      cases c with
      | nondict => simp [p569Ok, dictClaim] at h
      | dict ts he => exact ⟨parseBirthTime ts, rfl⟩

theorem rawBirthdayWithFallback_ok (htmlF : String → String) (e : RawEntity) (title : String)
    (h : p569Ok e.p569 = true) :
    ∃ o, rawBirthdayWithFallback htmlF e title = .ok o := by
  obtain ⟨o, ho⟩ := raw_get_birth_date_ok e h
  rw [rawBirthdayWithFallback, ho]
  cases o with
  | some b => exact ⟨some b, rfl⟩
  | none => exact ⟨_, rfl⟩

theorem rawMemberPairs_ok :
    ∀ l : List RawClaim, l.all dictClaim = true → ∃ r, rawMemberPairs l = .ok r := by
  intro l
  induction l with
  | nil => intro _; exact ⟨[], rfl⟩
  | cons c rest ih =>
    intro h
    rw [List.all_cons, Bool.and_eq_true] at h
    cases c with
    | nondict => exact absurd h.1 (by simp [dictClaim])
    | dict q he =>
      obtain ⟨r, hr⟩ := ih h.2
      exact ⟨if q = "" then r else (q, he) :: r, by simp [rawMemberPairs, hr]⟩

theorem raw_get_members_ok (e : RawEntity) (h : claimsOk e.p527 = true) :
    ∃ l, raw_get_members e = .ok l := by
  rw [raw_get_members]
  cases hp : e.p527 with
  | none => exact ⟨selectMembers [], rfl⟩
  | some claims =>
    rw [hp] at h
    simp only [claimsOk] at h
    obtain ⟨r, hr⟩ := rawMemberPairs_ok claims h
    exact ⟨selectMembers r, by simp [hr]⟩

theorem candLoopRaw_ok (wdidF : String → Option String) (entityF : String → Option RawEntity)
    (htmlF : String → String) (name : String)
    (hws : ∀ i e, entityF i = some e → wellShapedEntity e = true) :
    ∀ titles : List String, exceptOk (candLoopRaw wdidF entityF htmlF name titles) = true := by
  intro titles
  induction titles with
  | nil => rfl
  | cons title rest ih =>
    cases hw : wdidF title with
    | none =>
      simp only [candLoopRaw, hw]
      exact ih
    | some w =>
      cases he : entityF w with
      | none =>
        simp only [candLoopRaw, hw, he]
        exact ih
      | some e =>
        have hwse := hws w e he
        rw [wellShapedEntity, Bool.and_eq_true, Bool.and_eq_true] at hwse
        obtain ⟨⟨h31, h569⟩, h527⟩ := hwse
        obtain ⟨bh, hbh⟩ := raw_is_human_ok e h31
        cases bh with
        | true =>
          obtain ⟨o, ho⟩ := rawBirthdayWithFallback_ok htmlF e title h569
          cases o with
          | some b => simp [candLoopRaw, hw, he, hbh, ho, exceptOk]
          | none => simp [candLoopRaw, hw, he, hbh, ho, exceptOk]
        | false =>
          obtain ⟨bb, hbb⟩ := raw_is_band_ok e h31
          cases bb with
          | true =>
            obtain ⟨mids, hm⟩ := raw_get_members_ok e h527
            simp only [candLoopRaw, hw, he, hbh, hbb, hm, Bool.false_eq_true, if_false]
            split
            · rfl
            · split <;> rfl
          | false =>
            obtain ⟨o, ho⟩ := rawBirthdayWithFallback_ok htmlF e title h569
            cases o with
            | some b => simp [candLoopRaw, hw, he, hbh, hbb, ho, exceptOk]
            | none =>
              simp only [candLoopRaw, hw, he, hbh, hbb, ho, Bool.false_eq_true, if_false]
              exact ih

theorem exceptOk_ite (c : Prop) [Decidable c] (a : List Member × String)
    (y : Except Unit (List Member × String)) (hy : exceptOk y = true) :
    exceptOk (if c then Except.ok a else y) = true := by
  by_cases hc : c
  · rw [if_pos hc]
    rfl
  · rw [if_neg hc]
    exact hy

theorem find_artist_info_raw_ok (c : RawWikiClient) (name : String)
    (hws : ∀ i e, raw_wikidata_get_entity c i = some e → wellShapedEntity e = true) :
    exceptOk (find_artist_info_raw c name) = true := by
  simp only [find_artist_info_raw]
  exact exceptOk_ite _ _ _ (candLoopRaw_ok _ _ _ name hws _)

/-- C9 counterexample: a JSON-valid but ill-shaped response crashes the
resolution uncaught.  Against a client whose only candidate resolves to a
human entity with a present-but-empty `P569` claim array, the unguarded
`claims['P569'][0]` of `wikidata_get_birth_date` raises inside the solo
branch and `find_artist_info` propagates the exception instead of returning
normally; a non-dict `P31` claim item crashes `wikidata_is_human` the same
way.  So the claim's universal "never propagates an exception" is false. -/
theorem resolver_uncaught_exception_cex :
    find_artist_info_raw cBadW "X" = .error () ∧
    exceptOk (find_artist_info_raw cBadW "X") = false ∧
    find_artist_info_raw cBad2W "X" = .error () := by
  refine ⟨rfl, rfl, rfl⟩

/-- C9 (amended): exceptions raised inside the four fetch helpers are caught
there and treated as the empty result for that step (`[]`, `None`, `{}`,
`''`), so transport failures never propagate and only move the state machine
to its next fallback tier — with every call failing, resolution still returns
normally with the `"no Wikipedia page"` note.  Whenever every entity the
client yields is well-shaped (its claim arrays scannable and a present
`P569` array nonempty with a dereferenceable first claim), `find_artist_info`
returns normally for every name.  However, exceptions raised while
post-processing a successfully fetched but ill-shaped entity occur outside
any `try` in the solo/band/unknown branches and do propagate (see the
counterexample); only the band branch's per-member `try` catches them. -/
theorem resolver_failure_policy :
    (∀ q, raw_wiki_search rawErrClient q = []) ∧
    (∀ t, raw_wiki_get_wikidata_id rawErrClient t = none) ∧
    (∀ i, raw_wikidata_get_entity rawErrClient i = none) ∧
    (∀ t, raw_wiki_get_page_html rawErrClient t = "") ∧
    (∀ name, find_artist_info_raw rawErrClient name = .ok ([], "no Wikipedia page")) ∧
    (∀ (c : RawWikiClient) (name : String),
      (∀ i e, raw_wikidata_get_entity c i = some e → wellShapedEntity e = true) →
      exceptOk (find_artist_info_raw c name) = true) := by
  refine ⟨fun q => rfl, fun t => rfl, fun i => rfl, fun t => rfl, fun name => rfl, ?_⟩
  intro c name hws
  exact find_artist_info_raw_ok c name hws

/-- C9 witness: the amended theorem applied to the concrete well-shaped raw
client `cRawW`, which resolves normally. -/
theorem resolver_failure_policy_witness :
    exceptOk (find_artist_info_raw cRawW "Ann") = true :=
  resolver_failure_policy.2.2.2.2.2 cRawW "Ann" (fun i e h => by
    by_cases hi : i = "W1"
    · subst hi
      rw [show raw_wikidata_get_entity cRawW "W1" = some rawEntH from rfl] at h
      rw [← Option.some.inj h]
      decide
    · rw [show raw_wikidata_get_entity cRawW i =
          (if i = "W1" then some rawEntH else none) from rfl, if_neg hi] at h
      exact Option.noConfusion h)

/-! ### Strict-mode anchoring (claim C3) -/

theorem strictLoop_some_conditions (shorts : List String) (t : String) :
    ∀ (tracked : List String) (a : String), strictLoop shorts t tracked = some a →
      (a ∈ shorts → (strStarts t a || bracketAnchored t a) = true) ∧
      (a ∉ shorts → (strStarts t a || (strStarts t "[" && subStr a.data (t.data.take 60))) = true) := by
  intro tracked
  induction tracked with
  | nil => intro a h; simp [strictLoop] at h
  | cons b rest ih =>
    intro a h
    simp only [strictLoop] at h
    by_cases h1 : (strStarts t b || (strStarts t "[" && subStr b.data (t.data.take 60))) = true
    · rw [if_pos h1] at h
      by_cases h2 : b ∈ shorts
      · rw [if_pos h2] at h
        by_cases h3 : strStarts t b = true
        · rw [if_pos h3] at h
          obtain rfl : b = a := Option.some.inj h
          exact ⟨fun _ => by simp [h3], fun _ => by simp [h3]⟩
        · rw [if_neg h3] at h
          by_cases h4 : bracketAnchored t b = true
          · rw [if_pos h4] at h
            obtain rfl : b = a := Option.some.inj h
            exact ⟨fun _ => by simp [h4], fun hn => absurd h2 hn⟩
          · rw [if_neg h4] at h
            exact ih a h
      · rw [if_neg h2] at h
        obtain rfl : b = a := Option.some.inj h
        exact ⟨fun hmem => absurd hmem h2, fun _ => h1⟩
    · rw [if_neg h1] at h
      exact ih a h

/-- C3 counterexample: strict mode returns a non-short roster name without
either anchored form holding — `"[x] foo Akon"` neither starts with `"Akon"`
nor has `"Akon"` right after its bracketed segment, yet strict resolution
returns `"Akon"` (bracket-prefixed texts only need the name somewhere in the
first 60 characters for non-short names). -/
theorem strict_mode_anchoring_cex :
    match_artist TRACKED_ARTISTS SHORT_NAMES (some "[x] foo Akon") true = some "Akon" ∧
    strStarts "[x] foo Akon" "Akon" = false ∧
    bracketRemainder "[x] foo Akon" = some "foo Akon" ∧
    strStarts "foo Akon" "Akon" = false ∧
    bracketAnchored "[x] foo Akon" "Akon" = false := by
  refine ⟨by decide, by decide, by decide, by decide, by decide⟩

/-- C3 (amended): in strict mode a SHORT roster name is returned only when
the text starts with it or the text after a leading bracketed segment starts
with it; a NON-short name is returned only when the text starts with it, or
the text starts with `[` and the name occurs (case-sensitively) within the
first 60 characters — without after-bracket anchoring.  The two examples
hold: `"[2024-05-01] Kiss announces tour"` resolves to `"Kiss"` and
`"The band Kiss is great"` resolves to none. -/
theorem strict_mode_anchoring :
    (∀ (tracked shorts : List String) (t a : String),
      strictLoop shorts t tracked = some a → a ∈ shorts →
      (strStarts t a || bracketAnchored t a) = true) ∧
    (∀ (tracked shorts : List String) (t a : String),
      strictLoop shorts t tracked = some a → a ∉ shorts →
      (strStarts t a || (strStarts t "[" && subStr a.data (t.data.take 60))) = true) ∧
    match_artist TRACKED_ARTISTS SHORT_NAMES
      (some "[2024-05-01] Kiss announces tour") true = some "Kiss" ∧
    match_artist TRACKED_ARTISTS SHORT_NAMES (some "The band Kiss is great") true = none := by
  refine ⟨?_, ?_, by decide, by decide⟩
  · intro tracked shorts t a h hmem
    exact (strictLoop_some_conditions shorts t tracked a h).1 hmem
  · intro tracked shorts t a h hmem
    exact (strictLoop_some_conditions shorts t tracked a h).2 hmem

/-- C3 witness: the amended theorem applied to the short name `"Kiss"` on the
bracket-prefixed example text. -/
theorem strict_mode_anchoring_witness :
    (strStarts "[2024-05-01] Kiss announces tour" "Kiss" ||
      bracketAnchored "[2024-05-01] Kiss announces tour" "Kiss") = true :=
  strict_mode_anchoring.1 TRACKED_ARTISTS SHORT_NAMES
    "[2024-05-01] Kiss announces tour" "Kiss" (by decide) (by decide)

/-! ### Chart suppression (claim C5) -/

theorem chartKeep_of_nonchart (cov : List (String × String)) (e : Event)
    (h : ¬ e.occasion = "Chart") : chartKeep cov e = true := by
  simp [chartKeep, h]

theorem filter_chart_nonchart (cov : List (String × String)) :
    ∀ l : List Event,
      (l.filter (chartKeep cov)).filter (fun e => decide (e.occasion ≠ "Chart")) =
        l.filter (fun e => decide (e.occasion ≠ "Chart")) := by
  intro l
  induction l with
  | nil => rfl
  | cons e rest ih =>
    by_cases hc : e.occasion = "Chart"
    · have hnc : decide (e.occasion ≠ "Chart") = false := by simp [hc]
      by_cases hk : chartKeep cov e = true
      · simp only [List.filter_cons, hk, if_true, hnc, Bool.false_eq_true, if_false, ih]
      · simp only [List.filter_cons, hk, Bool.false_eq_true, if_false, hnc, ih]
    · have hk : chartKeep cov e = true := chartKeep_of_nonchart cov e hc
      have hnc : decide (e.occasion ≠ "Chart") = true := by simp [hc]
      simp only [List.filter_cons, hk, if_true, hnc, ih]

theorem mem_eventCovered :
    ∀ (es : List Event) (a t : String),
      (a, t) ∈ eventCovered es ↔
        ∃ e, e ∈ es ∧ e.occasion ≠ "Chart" ∧ e.artist = a ∧
          extract_title e.name = some t ∧ t ≠ "" := by
  intro es a t
  induction es with
  | nil => simp [eventCovered]
  | cons e rest ih =>
    by_cases hc : e.occasion = "Chart"
    · rw [show eventCovered (e :: rest) = eventCovered rest from by simp [eventCovered, hc], ih]
      constructor
      · rintro ⟨e', he', h⟩
        exact ⟨e', List.mem_cons_of_mem _ he', h⟩
      · rintro ⟨e', he', hocc, h⟩
        rcases List.mem_cons.mp he' with rfl | hm
        · exact absurd hc hocc
        · exact ⟨e', hm, hocc, h⟩
    · cases hx : extract_title e.name with
      | none =>
        rw [show eventCovered (e :: rest) = eventCovered rest from by simp [eventCovered, hc, hx],
          ih]
        constructor
        · rintro ⟨e', he', h⟩
          exact ⟨e', List.mem_cons_of_mem _ he', h⟩
        · rintro ⟨e', he', hocc, hart, hext, ht⟩
          rcases List.mem_cons.mp he' with rfl | hm
          · rw [hx] at hext; cases hext
          · exact ⟨e', hm, hocc, hart, hext, ht⟩
      | some t0 =>
        by_cases ht0 : t0 = ""
        · subst ht0
          rw [show eventCovered (e :: rest) = eventCovered rest from
            by simp [eventCovered, hc, hx], ih]
          constructor
          · rintro ⟨e', he', h⟩
            exact ⟨e', List.mem_cons_of_mem _ he', h⟩
          · rintro ⟨e', he', hocc, hart, hext, ht⟩
            rcases List.mem_cons.mp he' with rfl | hm
            · rw [hx] at hext
              exact absurd (Option.some.inj hext).symm ht
            · exact ⟨e', hm, hocc, hart, hext, ht⟩
        · rw [show eventCovered (e :: rest) = (e.artist, t0) :: eventCovered rest from
            by simp [eventCovered, hc, hx, ht0]]
          constructor
          · intro hmem
            rcases List.mem_cons.mp hmem with heq | hm
            · injection heq with h1 h2
              refine ⟨e, List.mem_cons_self _ _, hc, h1.symm, ?_, ?_⟩
              · rw [h2]; exact hx
              · rw [h2]; exact ht0
            · obtain ⟨e', he', h⟩ := ih.mp hm
              exact ⟨e', List.mem_cons_of_mem _ he', h⟩
          · rintro ⟨e', he', hocc, hart, hext, ht⟩
            rcases List.mem_cons.mp he' with rfl | hm
            · rw [hx] at hext
              have h2 : t0 = t := Option.some.inj hext
              exact List.mem_cons.mpr (Or.inl (by rw [hart, h2]))
            · exact List.mem_cons.mpr (Or.inr (ih.mpr ⟨e', hm, hocc, hart, hext, ht⟩))

theorem mem_coveredSet (es : List Event) (vs : List Video) (a t : String) :
    (a, t) ∈ coveredSet es vs ↔
      (∃ e, e ∈ es ∧ e.occasion ≠ "Chart" ∧ e.artist = a ∧
        extract_title e.name = some t ∧ t ≠ "") ∨
      (∃ v, v ∈ vs ∧ v.artist = a ∧ lowerS (trimS v.title) = t) := by
  rw [coveredSet, List.mem_append, mem_eventCovered]
  constructor
  · rintro (h | h)
    · exact Or.inl h
    · obtain ⟨v, hv, heq⟩ := List.mem_map.mp h
      injection heq.symm with h1 h2
      exact Or.inr ⟨v, hv, h1.symm, h2.symm⟩
  · rintro (h | ⟨v, hv, h1, h2⟩)
    · exact Or.inl h
    · exact Or.inr (List.mem_map.mpr ⟨v, hv, by rw [h1, h2]⟩)

/-- C5: `filter_chart_events` never grows the event list; it preserves every
non-chart event unchanged and in order (the non-chart sublists of input and
output coincide); a chart event with no truthy quoted title is always kept;
and a chart event is dropped exactly when its extracted quoted title (trimmed,
case-folded, nonempty) paired with its artist is covered by some non-chart
event's extracted title or some video's normalized title. -/
theorem chart_suppression_spec (es : List Event) (vs : List Video) :
    (filter_chart_events es vs).length ≤ es.length ∧
    (filter_chart_events es vs).filter (fun e => decide (e.occasion ≠ "Chart")) =
      es.filter (fun e => decide (e.occasion ≠ "Chart")) ∧
    (∀ e, e ∈ es → e.occasion = "Chart" →
      (∀ t, extract_title e.name = some t → t = "") →
      e ∈ filter_chart_events es vs) ∧
    (∀ e, e.occasion = "Chart" →
      (chartKeep (coveredSet es vs) e = false ↔
        ∃ t, extract_title e.name = some t ∧ t ≠ "" ∧
          ((∃ e', e' ∈ es ∧ e'.occasion ≠ "Chart" ∧ e'.artist = e.artist ∧
              extract_title e'.name = some t) ∨
           (∃ v, v ∈ vs ∧ v.artist = e.artist ∧ lowerS (trimS v.title) = t)))) := by
  refine ⟨List.length_filter_le _ es, filter_chart_nonchart _ es, ?_, ?_⟩
  · intro e he hc hnt
    refine List.mem_filter.mpr ⟨he, ?_⟩
    cases hx : extract_title e.name with
    | none => simp [chartKeep, hc, hx]
    | some t => simp [chartKeep, hc, hx, hnt t hx]
  · intro e hc
    cases hx : extract_title e.name with
    | none =>
      constructor
      · intro h
        rw [show chartKeep (coveredSet es vs) e = true from by simp [chartKeep, hc, hx]] at h
        exact Bool.noConfusion h
      · rintro ⟨t, hext, _⟩
        exact Option.noConfusion hext
    | some t0 =>
      constructor
      · intro h
        simp only [chartKeep, hc, if_true, hx] at h
        by_cases hcond : t0 ≠ "" ∧ (e.artist, t0) ∈ coveredSet es vs
        · obtain ⟨ht0, hmem⟩ := hcond
          rcases (mem_coveredSet es vs e.artist t0).mp hmem with ⟨e', he', hocc, hart, hext, _⟩ | hv
          · exact ⟨t0, rfl, ht0, Or.inl ⟨e', he', hocc, hart, hext⟩⟩
          · exact ⟨t0, rfl, ht0, Or.inr hv⟩
        · rw [if_neg hcond] at h
          exact Bool.noConfusion h
      · rintro ⟨t, hext, ht, hcov⟩
        obtain rfl : t0 = t := Option.some.inj hext
        have hmem : (e.artist, t0) ∈ coveredSet es vs := by
          refine (mem_coveredSet es vs e.artist t0).mpr ?_
          rcases hcov with ⟨e', he', hocc, hart, hext'⟩ | hv
          · exact Or.inl ⟨e', he', hocc, hart, hext', ht⟩
          · exact Or.inr hv
        simp [chartKeep, hc, hx, ht, hmem]

/-- C5 witness: a chart event with no quoted title in its raw name passes
through the filter. -/
theorem chart_suppression_spec_witness :
    evW ∈ filter_chart_events [evW] [] :=
  (chart_suppression_spec [evW] []).2.2.1 evW (List.mem_singleton.mpr rfl) (by decide)
    (fun t ht => by rw [show extract_title evW.name = none from by decide] at ht; cases ht)

/-! ### Birthday fusion preserves dates (claim C1) -/

theorem getEntry_modify_self :
    ∀ (m : BMap) (k : String) (f : Bday → Bday),
      getEntry (modifyEntry m k f) k = (getEntry m k).map f := by
  intro m k f
  induction m with
  | nil => rfl
  | cons p rest ih =>
    obtain ⟨k', v'⟩ := p
    by_cases h : k' = k
    · simp [modifyEntry, getEntry, h]
    · simp [modifyEntry, getEntry, h, ih]

theorem getEntry_modify_ne :
    ∀ (m : BMap) (k k' : String) (f : Bday → Bday), k' ≠ k →
      getEntry (modifyEntry m k' f) k = getEntry m k := by
  intro m k k' f hne
  induction m with
  | nil => rfl
  | cons p rest ih =>
    obtain ⟨k0, v0⟩ := p
    by_cases h : k0 = k'
    · subst h
      simp [modifyEntry, getEntry, hne]
    · simp [modifyEntry, getEntry, h, ih]

theorem getEntry_set_ne :
    ∀ (m : BMap) (k k' : String) (v : Bday), k' ≠ k →
      getEntry (setEntry m k' v) k = getEntry m k := by
  intro m k k' v hne
  induction m with
  | nil => simp [setEntry, getEntry, hne]
  | cons p rest ih =>
    obtain ⟨k0, v0⟩ := p
    by_cases h : k0 = k'
    · subst h
      simp [setEntry, getEntry, hne]
    · simp [setEntry, getEntry, h, ih]

theorem hasKey_set_mono :
    ∀ (m : BMap) (k k' : String) (v : Bday), hasKey m k = true →
      hasKey (setEntry m k' v) k = true := by
  intro m k k' v h
  by_cases hk : k' = k
  · subst hk
    unfold hasKey
    induction m with
    | nil => simp [setEntry, getEntry]
    | cons p rest ih =>
      obtain ⟨k0, v0⟩ := p
      by_cases h0 : k0 = k'
      · simp [setEntry, getEntry, h0]
      · unfold hasKey at h ih
        simp only [getEntry, h0] at h
        simp [setEntry, getEntry, h0, ih h]
  · rw [hasKey, getEntry_set_ne m k k' v hk]
    exact h

theorem hasKey_modify :
    ∀ (m : BMap) (k k' : String) (f : Bday → Bday),
      hasKey (modifyEntry m k' f) k = hasKey m k := by
  intro m k k' f
  by_cases hk : k' = k
  · subst hk
    rw [hasKey, hasKey, getEntry_modify_self]
    cases getEntry m k' <;> rfl
  · rw [hasKey, hasKey, getEntry_modify_ne m k k' f hk]

theorem datesAt_modify (m : BMap) (k' : String) (f : Bday → Bday)
    (hf : ∀ r, dates (f r) = dates r) (k : String) :
    datesAt (modifyEntry m k' f) k = datesAt m k := by
  by_cases hk : k' = k
  · subst hk
    rw [datesAt, datesAt, getEntry_modify_self]
    cases getEntry m k' with
    | none => rfl
    | some r => simp [hf r]
  · rw [datesAt, datesAt, getEntry_modify_ne m k k' f hk]

theorem datesAt_attachArticleIfMissing (bd : BMap) (a url k : String) :
    datesAt (attachArticleIfMissing bd a url) k = datesAt bd k := by
  rw [attachArticleIfMissing]
  cases getEntry bd a with
  | none => rfl
  | some r =>
    by_cases h : r.articleUrl = none
    · simp only [h, if_true]
      exact datesAt_modify bd a (fun r => { r with articleUrl := some url }) (fun r => rfl) k
    · simp [h]

theorem datesAt_attach_bestof :
    ∀ (ps : List (String × String)) (bd : BMap) (k : String),
      datesAt (attach_bestof ps bd) k = datesAt bd k := by
  intro ps
  induction ps with
  | nil => intro bd k; rfl
  | cons p rest ih =>
    intro bd k
    show datesAt (attach_bestof rest (attachArticleIfMissing bd p.1 p.2)) k = datesAt bd k
    rw [ih, datesAt_attachArticleIfMissing]

theorem datesAt_second_pass :
    ∀ (ps : List (String × String)) (bd : BMap) (k : String),
      datesAt (second_pass_attach ps bd) k = datesAt bd k := by
  intro ps
  induction ps with
  | nil => intro bd k; rfl
  | cons p rest ih =>
    intro bd k
    show datesAt (second_pass_attach rest (attachArticleIfMissing bd p.1 p.2)) k = datesAt bd k
    rw [ih, datesAt_attachArticleIfMissing]


theorem datesAt_attach_pages (pages aliases : List (String × String)) :
    ∀ (bd : BMap) (k : String),
      datesAt (attach_pages pages aliases bd) k = datesAt bd k := by
  intro bd
  induction bd with
  | nil => intro k; rfl
  | cons p rest ih =>
    intro k
    obtain ⟨k0, v0⟩ := p
    have hrest : attach_pages pages aliases ((k0, v0) :: rest) =
        (match pageUrlFor pages aliases k0 with
         | some url => (k0, { v0 with artistPageUrl := some url })
         | none => (k0, v0)) :: attach_pages pages aliases rest := by
      simp [attach_pages]
    rw [hrest]
    cases hp : pageUrlFor pages aliases k0 with
    | some url =>
      by_cases hk : k0 = k
      · simp [datesAt, getEntry, hk, dates]
      · simp only [datesAt, getEntry, hk, if_false]
        exact ih k
    | none =>
      by_cases hk : k0 = k
      · simp [datesAt, getEntry, hk]
      · simp only [datesAt, getEntry, hk, if_false]
        exact ih k

theorem datesAt_attachScrapedLinks (bestof : List (String × String)) (bd : BMap)
    (key pageUrl artistName k : String) :
    datesAt (attachScrapedLinks bestof bd key pageUrl artistName) k = datesAt bd k := by
  rw [attachScrapedLinks]
  have h1 : ∀ bd' : BMap,
      datesAt (modifyEntry bd' key (fun r => { r with artistPageUrl := some pageUrl })) k =
        datesAt bd' k :=
    fun bd' =>
      datesAt_modify bd' key (fun r => { r with artistPageUrl := some pageUrl }) (fun r => rfl) k
  cases hbo : lookupPair bestof artistName with
  | none =>
    by_cases hp : pageUrl ≠ "" ∧ strStarts pageUrl "http" = true
    · simp only [if_pos hp]
      exact h1 bd
    · simp only [if_neg hp]
  | some bo =>
    by_cases hb : bo ≠ ""
    · simp only [if_pos hb]
      rw [datesAt_modify _ key (fun r => { r with articleUrl := some bo }) (fun r => rfl) k]
      by_cases hp : pageUrl ≠ "" ∧ strStarts pageUrl "http" = true
      · simp only [if_pos hp]
        exact h1 bd
      · simp only [if_neg hp]
    · simp only [if_neg hb]
      by_cases hp : pageUrl ≠ "" ∧ strStarts pageUrl "http" = true
      · simp only [if_pos hp]
        exact h1 bd
      · simp only [if_neg hp]

theorem hasKey_attachScrapedLinks (bestof : List (String × String)) (bd : BMap)
    (key pageUrl artistName k : String) :
    hasKey (attachScrapedLinks bestof bd key pageUrl artistName) k = hasKey bd k := by
  rw [attachScrapedLinks]
  cases hbo : lookupPair bestof artistName with
  | none =>
    by_cases hp : pageUrl ≠ "" ∧ strStarts pageUrl "http" = true
    · simp only [if_pos hp]
      exact hasKey_modify bd k key _
    · simp only [if_neg hp]
  | some bo =>
    by_cases hb : bo ≠ ""
    · simp only [if_pos hb]
      rw [hasKey_modify]
      by_cases hp : pageUrl ≠ "" ∧ strStarts pageUrl "http" = true
      · simp only [if_pos hp]
        exact hasKey_modify bd k key _
      · simp only [if_neg hp]
    · simp only [if_neg hb]
      by_cases hp : pageUrl ≠ "" ∧ strStarts pageUrl "http" = true
      · simp only [if_pos hp]
        exact hasKey_modify bd k key _
      · simp only [if_neg hp]

theorem mergeGo_dates (bestof : List (String × String)) (k : String) :
    ∀ (scraped : List Scraped) (bd : BMap) (seen : List (String × String)),
      hasKey bd k = true →
      (∀ e ∈ scraped, bandKeyOf e ≠ some k) →
      datesAt (mergeGo bestof bd seen scraped) k = datesAt bd k := by
  intro scraped
  induction scraped with
  | nil => intro bd seen _ _; rfl
  | cons e rest ih =>
    intro bd seen hbd hband
    have hbandrest : ∀ e' ∈ rest, bandKeyOf e' ≠ some k :=
      fun e' he' => hband e' (List.mem_cons_of_mem _ he')
    cases hp : parseBirthday e.birthday with
    | none =>
      simp only [mergeGo, hp]
      exact ih bd seen hbd hbandrest
    | some ymd =>
      obtain ⟨y, m, d⟩ := ymd
      by_cases hdk : (lowerS e.memberName, e.birthday) ∈ seen
      · simp only [mergeGo, hp, if_pos hdk]
        exact ih bd seen hbd hbandrest
      · by_cases hbm : isBandMember e = true
        · have hkey : e.artistName ++ " — " ++ e.memberName ≠ k := by
            intro hkk
            exact hband e (List.mem_cons_self _ _) (by rw [bandKeyOf, if_pos hbm, hkk])
          simp only [mergeGo, hp, if_neg hdk, if_pos hbm]
          rw [ih _ _ ?_ hbandrest, datesAt_attachScrapedLinks,
            datesAt, getEntry_set_ne bd k _ _ hkey]
          · rfl
          · rw [hasKey_attachScrapedLinks]
            exact hasKey_set_mono bd k _ _ hbd
        · by_cases hin : hasKey bd e.artistName = true
          · simp only [mergeGo, hp, if_neg hdk, if_neg hbm, hin, if_true]
            exact ih bd _ hbd hbandrest
          · have hkey : e.artistName ≠ k := by
              intro hkk
              rw [hkk] at hin
              exact hin hbd
            simp only [mergeGo, hp, if_neg hdk, if_neg hbm]
            rw [if_neg (by simpa using hin)]
            rw [ih _ _ ?_ hbandrest, datesAt_attachScrapedLinks,
              datesAt, getEntry_set_ne bd k _ _ hkey]
            · rfl
            · rw [hasKey_attachScrapedLinks]
              exact hasKey_set_mono bd k _ _ hbd

/-- C1 counterexample: with an existing record stored under the key
`"Foo — Bar"` (month 1, day 1, year 1960), merging a scraped band-member
record for band `"Foo"`, member `"Bar"` carrying the date 1970-02-03
overwrites that record's `month`/`day`/`birthYear` — the scraped-record merge
writes band-member compound keys unconditionally, so the stored date of an
existing record under that exact key does change. -/
theorem birthday_fusion_overwrite_cex :
    hasKey bdX "Foo — Bar" = true ∧
    datesAt bdX "Foo — Bar" = some (1960, 1, 1) ∧
    datesAt (merge_scraped [] bdX [scX]) "Foo — Bar" = some (1970, 2, 3) ∧
    ¬ datesAt (merge_scraped [] bdX [scX]) "Foo — Bar" = datesAt bdX "Foo — Bar" := by
  refine ⟨by decide, by decide, by decide, by decide⟩

/-- C1 (amended): after a birthday record exists under a key, the best-of
article attachment, the second-pass article attachment and the artist-page
attachment never change its `birthYear`/`month`/`day`; the scraped-record
merge never changes them for any existing key either, except a key that
coincides with the compound `"Band — Member"` key of some scraped band-member
record, which is written unconditionally.  In particular, for a solo artist
whose key already holds a birthday, merging a scraped record carrying a
different date under the same solo key leaves the stored date unchanged
(scraped solo records are skipped whenever their key is already present). -/
theorem birthday_fusion_preserves_dates :
    (∀ (bestof : List (String × String)) (bd : BMap) (k : String),
      datesAt (attach_bestof bestof bd) k = datesAt bd k) ∧
    (∀ (arts : List (String × String)) (bd : BMap) (k : String),
      datesAt (second_pass_attach arts bd) k = datesAt bd k) ∧
    (∀ (pages aliases : List (String × String)) (bd : BMap) (k : String),
      datesAt (attach_pages pages aliases bd) k = datesAt bd k) ∧
    (∀ (bestof : List (String × String)) (bd : BMap) (scraped : List Scraped) (k : String),
      hasKey bd k = true →
      (∀ e ∈ scraped, bandKeyOf e ≠ some k) →
      datesAt (merge_scraped bestof bd scraped) k = datesAt bd k) := by
  refine ⟨datesAt_attach_bestof, datesAt_second_pass,
    fun pages aliases bd k => datesAt_attach_pages pages aliases bd k, ?_⟩
  intro bestof bd scraped k hbd hband
  exact mergeGo_dates bestof k scraped bd _ hbd hband

/-- C1 witness: the claim's own example — an existing solo record for `"A"`
with month 3, day 4 survives the merge of a scraped solo record for `"A"`
carrying month 5, day 6 unchanged. -/
theorem birthday_fusion_preserves_dates_witness :
    datesAt (merge_scraped [] bdW [sW]) "A" = datesAt bdW "A" :=
  birthday_fusion_preserves_dates.2.2.2 [] bdW [sW] "A" (by decide)
    (fun e he => by
      rw [List.mem_singleton] at he
      subst he
      decide)

/-! ### Human classification is authoritative (claim C8) -/

theorem candLoop_human (c : WikiClient) (name title wdid : String) (e : Entity)
    (h1 : wiki_get_wikidata_id c title = some wdid)
    (h2 : wikidata_get_entity c wdid = some e)
    (h3 : wikidata_is_human e = true) :
    ∀ (pre : List String), (∀ t ∈ pre, candSkips c t) →
      ∀ (post : List String),
        candLoop (wiki_get_wikidata_id c) (wikidata_get_entity c) (wiki_get_page_html c) name
            (pre ++ title :: post) =
          (match birthdayWithFallback (wiki_get_page_html c) e title with
           | some b => ([⟨name, b⟩], "solo (" ++ title ++ ")")
           | none => ([], "solo, no date (" ++ title ++ ")")) := by
  intro pre
  induction pre with
  | nil =>
    intro _ post
    rw [List.nil_append]
    show (match wiki_get_wikidata_id c title with
      | none => candLoop _ _ _ name post
      | some w =>
        match wikidata_get_entity c w with
        | none => candLoop _ _ _ name post
        | some e' =>
          if wikidata_is_human e' then
            match birthdayWithFallback (wiki_get_page_html c) e' title with
            | some b => ([⟨name, b⟩], "solo (" ++ title ++ ")")
            | none => ([], "solo, no date (" ++ title ++ ")")
          else if wikidata_is_band e' then resolveBand (wikidata_get_entity c) e' title
          else
            match birthdayWithFallback (wiki_get_page_html c) e' title with
            | some b => ([⟨name, b⟩], "other (" ++ title ++ ")")
            | none => candLoop _ _ _ name post) = _
    simp [h1, h2, h3]
  | cons t pre ih =>
    intro hskip post
    have hs := hskip t (List.mem_cons_self _ _)
    have hrest : ∀ x ∈ pre, candSkips c x := fun x hx => hskip x (List.mem_cons_of_mem _ hx)
    rw [List.cons_append]
    rcases hs with h | ⟨w, hw, hent⟩ | ⟨w, e', hw, hent, hh, hb, hbd⟩
    · show (match wiki_get_wikidata_id c t with
        | none => candLoop _ _ _ name (pre ++ title :: post)
        | some w =>
          match wikidata_get_entity c w with
          | none => candLoop _ _ _ name (pre ++ title :: post)
          | some e' =>
            if wikidata_is_human e' then
              match birthdayWithFallback (wiki_get_page_html c) e' t with
              | some b => ([⟨name, b⟩], "solo (" ++ t ++ ")")
              | none => ([], "solo, no date (" ++ t ++ ")")
            else if wikidata_is_band e' then resolveBand (wikidata_get_entity c) e' t
            else
              match birthdayWithFallback (wiki_get_page_html c) e' t with
              | some b => ([⟨name, b⟩], "other (" ++ t ++ ")")
              | none => candLoop _ _ _ name (pre ++ title :: post)) = _
      rw [h]
      exact ih hrest post
    · show (match wiki_get_wikidata_id c t with
        | none => candLoop _ _ _ name (pre ++ title :: post)
        | some w =>
          match wikidata_get_entity c w with
          | none => candLoop _ _ _ name (pre ++ title :: post)
          | some e' =>
            if wikidata_is_human e' then
              match birthdayWithFallback (wiki_get_page_html c) e' t with
              | some b => ([⟨name, b⟩], "solo (" ++ t ++ ")")
              | none => ([], "solo, no date (" ++ t ++ ")")
            else if wikidata_is_band e' then resolveBand (wikidata_get_entity c) e' t
            else
              match birthdayWithFallback (wiki_get_page_html c) e' t with
              | some b => ([⟨name, b⟩], "other (" ++ t ++ ")")
              | none => candLoop _ _ _ name (pre ++ title :: post)) = _
      simp only [hw, hent]
      exact ih hrest post
    · show (match wiki_get_wikidata_id c t with
        | none => candLoop _ _ _ name (pre ++ title :: post)
        | some w =>
          match wikidata_get_entity c w with
          | none => candLoop _ _ _ name (pre ++ title :: post)
          | some e' =>
            if wikidata_is_human e' then
              match birthdayWithFallback (wiki_get_page_html c) e' t with
              | some b => ([⟨name, b⟩], "solo (" ++ t ++ ")")
              | none => ([], "solo, no date (" ++ t ++ ")")
            else if wikidata_is_band e' then resolveBand (wikidata_get_entity c) e' t
            else
              match birthdayWithFallback (wiki_get_page_html c) e' t with
              | some b => ([⟨name, b⟩], "other (" ++ t ++ ")")
              | none => candLoop _ _ _ name (pre ++ title :: post)) = _
      simp only [hw, hent, hh, Bool.false_eq_true, if_false, hb, hbd]
      exact ih hrest post

/-- C8: as soon as the candidate loop reaches a page whose entity is
classified human (all earlier candidates having been skippable: unresolvable,
empty, or unknown-type with no recoverable date), the whole result is
determined by that candidate alone — one `{member, birthday}` pair tagged
`solo` on success, or the empty list with a `solo, no date` note — and the
candidates after it never influence the result, whether or not a birth date
was found. -/
theorem human_classification_authoritative (c : WikiClient) (name : String)
    (pre post : List String) (title wdid : String) (e : Entity)
    (hlen : pre.length ≤ 2)
    (hpre : ∀ t ∈ pre, candSkips c t)
    (h1 : wiki_get_wikidata_id c title = some wdid)
    (h2 : wikidata_get_entity c wdid = some e)
    (h3 : wikidata_is_human e = true)
    (hs : wiki_search c name = pre ++ title :: post) :
    find_artist_info c name =
      (match birthdayWithFallback (wiki_get_page_html c) e title with
       | some b => ([⟨name, b⟩], "solo (" ++ title ++ ")")
       | none => ([], "solo, no date (" ++ title ++ ")")) ∧
    (∀ post' : List String,
      candLoop (wiki_get_wikidata_id c) (wikidata_get_entity c) (wiki_get_page_html c) name
          (pre ++ title :: post') =
        (match birthdayWithFallback (wiki_get_page_html c) e title with
         | some b => ([⟨name, b⟩], "solo (" ++ title ++ ")")
         | none => ([], "solo, no date (" ++ title ++ ")"))) := by
  have hloop := candLoop_human c name title wdid e h1 h2 h3 pre hpre
  refine ⟨?_, hloop⟩
  have hne : ((pre ++ title :: post).isEmpty) = false := by
    cases pre <;> rfl
  have htake : (pre ++ title :: post).take 3 = pre ++ title :: post.take (2 - pre.length) := by
    rw [List.take_append_eq_append_take, List.take_of_length_le (le_trans hlen (by omega)),
      show 3 - pre.length = (2 - pre.length) + 1 from by omega, List.take_succ_cons]
  rw [find_artist_info, findArtistInfoCore]
  simp only [hs, hne, Bool.false_eq_true, if_false, htake]
  exact hloop (post.take (2 - pre.length))

/-- C8 witness: against the concrete client `cW`, searching `"Ann"` yields the
single human candidate `T1`, whose structured birth date decides the result;
a candidate list extended past `T1` produces the same result. -/
theorem human_classification_authoritative_witness :
    find_artist_info cW "Ann" = ([⟨"Ann", "1950-03-04"⟩], "solo (T1)") ∧
    candLoop (wiki_get_wikidata_id cW) (wikidata_get_entity cW) (wiki_get_page_html cW) "Ann"
        ["T1", "T2"] = ([⟨"Ann", "1950-03-04"⟩], "solo (T1)") := by
  have h := human_classification_authoritative cW "Ann" [] [] "T1" "W1" entH
    (by decide) (fun t ht => absurd ht (List.not_mem_nil t)) (by decide) (by decide)
    (by decide) (by decide)
  refine ⟨?_, ?_⟩
  · rw [h.1]
    decide
  · have h2 := h.2 ["T2"]
    rw [show ([] : List String) ++ "T1" :: ["T2"] = ["T1", "T2"] from rfl] at h2
    rw [h2]
    decide
